import Mathlib

/-!
# Verification of a RISC-V educational simulator

A shallow embedding of the two near-identical simulator variants found in the
repository (the variant from `script.js` is suffixed `B`, the other variant is
suffixed `A`).  JavaScript numbers appearing in the simulator are always
integer-valued doubles or NaN, so they are modelled as `Option Int` with
`none` standing for NaN (and for `undefined` where a register read can be out
of range).  Arithmetic performed by JavaScript on such values is captured by
integer arithmetic followed by `roundF64`, rounding to the nearest
IEEE-754 double (53-bit significand, ties to even), and by the `ToInt32`
coercion `toInt32` for the `| 0` and bitwise operations.
-/

set_option maxRecDepth 20000

namespace RiscvSim

/-- JavaScript `ToUint32`: reduce an integer to the range `[0, 2^32)`. -/
def toUint32 (n : Int) : Int := n % 4294967296

/-- JavaScript `ToInt32`: reduce an integer to the signed 32-bit
two's-complement range `[-2^31, 2^31)`. -/
def toInt32 (n : Int) : Int := (n + 2147483648) % 4294967296 - 2147483648

/-- Fuelled bit-length computation (number of binary digits of `n`). -/
def natBitsGo : Nat → Nat → Nat
  | 0, _ => 0
  | fuel + 1, n => if n = 0 then 0 else natBitsGo fuel (n / 2) + 1

/-- Number of binary digits of `n` (`0` for `0`). -/
def natBits (n : Nat) : Nat := natBitsGo (n + 1) n

/-- Round a natural number to the nearest IEEE-754 double-precision value
(53-bit significand, round to nearest, ties to even).  Exact below `2^53`.
This models the value JavaScript obtains for an exact integer result of
`+`, `-`, `*` or `parseInt` before any `| 0` truncation. -/
def roundF64Nat (n : Nat) : Nat :=
  if n < 9007199254740992 then n
  else
    let e := natBits n - 53
    let q := n / 2 ^ e
    let r := n % 2 ^ e
    let q' := if 2 * r < 2 ^ e then q
              else if 2 * r > 2 ^ e then q + 1
              else if q % 2 = 0 then q else q + 1
    q' * 2 ^ e

/-- Rounding of signed integers to double precision (rounding is sign-symmetric). -/
def roundF64 (n : Int) : Int :=
  if n < 0 then -(roundF64Nat n.natAbs : Int) else (roundF64Nat n.natAbs : Int)

/-- Fuelled bitwise AND on naturals (avoids well-founded recursion so that
closed terms reduce inside the kernel). -/
def natBitAndGo : Nat → Nat → Nat → Nat
  | 0, _, _ => 0
  | fuel + 1, a, b =>
    if a = 0 ∨ b = 0 then 0
    else natBitAndGo fuel (a / 2) (b / 2) * 2 +
      (if a % 2 = 1 ∧ b % 2 = 1 then 1 else 0)

def natBitAnd (a b : Nat) : Nat := natBitAndGo (a + b + 1) a b

/-- Fuelled bitwise OR on naturals. -/
def natBitOrGo : Nat → Nat → Nat → Nat
  | 0, _, _ => 0
  | fuel + 1, a, b =>
    if a = 0 ∧ b = 0 then 0
    else natBitOrGo fuel (a / 2) (b / 2) * 2 +
      (if a % 2 = 1 ∨ b % 2 = 1 then 1 else 0)

def natBitOr (a b : Nat) : Nat := natBitOrGo (a + b + 1) a b

/-! ## String utilities mirroring the JavaScript ones used by the simulator -/

/-- The whitespace class of JavaScript `\s` restricted to the ASCII characters
that can actually occur in a program line. -/
def isJsWs (c : Char) : Bool :=
  c = ' ' || c = '\t' || c = '\n' || c = '\r' || c = '\x0b' || c = '\x0c'

/-- JavaScript `String.prototype.trim`. -/
def jsTrim (s : String) : String :=
  ⟨((s.data.dropWhile isJsWs).reverse.dropWhile isJsWs).reverse⟩

/-- JavaScript `s.replace(/pat/g, new)` for single-character patterns and
replacements, as used on `,`, `(` and `)`. -/
def replaceChar (pat new : Char) (s : String) : String :=
  ⟨s.data.map (fun c => if c = pat then new else c)⟩

/-- Worker for JavaScript `String.prototype.split` with a single-character
separator (used with `'\n'` by `loadProgram` and `' '` by one of the
`generateFakeBinary` variants).  Empty fields are kept, as in JavaScript. -/
def splitOnCharGo (sep : Char) : List Char → List Char → List String
  | [], acc => [⟨acc.reverse⟩]
  | c :: rest, acc =>
    if c = sep then ⟨acc.reverse⟩ :: splitOnCharGo sep rest []
    else splitOnCharGo sep rest (c :: acc)

def jsSplitChar (sep : Char) (s : String) : List String := splitOnCharGo sep s.data []

/-- Worker for JavaScript `split(/\s+/)`: a leading run of whitespace yields a
leading empty field, a trailing run a trailing empty field, and `""` splits to
`[""]` — exactly the JavaScript behaviour. -/
def splitWsGo : List Char → List Char → Bool → List String
  | [], acc, inWs => if inWs then [""] else [⟨acc.reverse⟩]
  | c :: rest, acc, inWs =>
    if isJsWs c then
      if inWs then splitWsGo rest [] true
      else ⟨acc.reverse⟩ :: splitWsGo rest [] true
    else splitWsGo rest (c :: acc) false

def jsSplitWs (s : String) : List String := splitWsGo s.data [] false

/-- The test `cleanLine.startsWith('#')`. -/
def startsWithHash (s : String) : Bool :=
  match s.data with
  | c :: _ => c = '#'
  | [] => false

/-- ASCII uppercase of one character, as `toUpperCase` acts on the mnemonics
occurring here. -/
def upperChar (c : Char) : Char :=
  if 97 ≤ c.toNat ∧ c.toNat ≤ 122 then Char.ofNat (c.toNat - 32) else c

/-- JavaScript `String.prototype.toUpperCase` (ASCII fragment). -/
def jsToUpper (s : String) : String := ⟨s.data.map upperChar⟩

/-- Fuelled decimal rendering of a natural number. -/
def natDigitsGo : Nat → Nat → List Char
  | 0, _ => []
  | fuel + 1, n =>
    if n < 10 then [Char.ofNat (48 + n)]
    else natDigitsGo fuel (n / 10) ++ [Char.ofNat (48 + n % 10)]

def natToStr (n : Nat) : String := ⟨natDigitsGo (n + 1) n⟩

/-- Decimal rendering of an integer, as JavaScript template literals render
integer-valued numbers. -/
def intToStr (i : Int) : String :=
  if i < 0 then "-" ++ natToStr i.natAbs else natToStr i.natAbs

/-! ## `parseInt` -/

def digitValB (c : Char) : Option Nat :=
  if 48 ≤ c.toNat ∧ c.toNat ≤ 57 then some (c.toNat - 48) else none

def hexValB (c : Char) : Option Nat :=
  if 48 ≤ c.toNat ∧ c.toNat ≤ 57 then some (c.toNat - 48)
  else if 97 ≤ c.toNat ∧ c.toNat ≤ 102 then some (c.toNat - 87)
  else if 65 ≤ c.toNat ∧ c.toNat ≤ 70 then some (c.toNat - 55)
  else none

/-- Longest prefix of decimal digits; `none` when there is no digit at all
(JavaScript `parseInt` then yields NaN). -/
def parseDecGo : List Char → Nat → Bool → Option Nat
  | [], acc, found => if found then some acc else none
  | c :: rest, acc, found =>
    match digitValB c with
    | some d => parseDecGo rest (acc * 10 + d) true
    | none => if found then some acc else none

def parseHexGo : List Char → Nat → Bool → Option Nat
  | [], acc, found => if found then some acc else none
  | c :: rest, acc, found =>
    match hexValB c with
    | some d => parseHexGo rest (acc * 16 + d) true
    | none => if found then some acc else none

/-- Magnitude part of `parseInt` (after an optional sign): a `0x`/`0X` prefix
selects hexadecimal, anything else is parsed as decimal. -/
def parseIntMag : List Char → Option Nat
  | '0' :: 'x' :: rest => parseHexGo rest 0 false
  | '0' :: 'X' :: rest => parseHexGo rest 0 false
  | l => parseDecGo l 0 false

/-- JavaScript `parseInt(s)` on a string: skip leading whitespace, optional
sign, then the longest valid digit prefix; `none` models NaN.  The resulting
mathematical integer is rounded to double precision, as `parseInt` returns a
JavaScript number. -/
def jsParseInt (s : String) : Option Int :=
  let l := s.data.dropWhile isJsWs
  let raw : Option Int :=
    match l with
    | '-' :: rest => (parseIntMag rest).map (fun n => -(n : Int))
    | '+' :: rest => (parseIntMag rest).map (fun n => (n : Int))
    | _ => (parseIntMag l).map (fun n => (n : Int))
  raw.map roundF64

/-- Version of `parseInt(parts[i])` where the token may be missing: `parseInt(undefined)`
is `parseInt("undefined")`, i.e. NaN — notably it does *not* throw. -/
def jsParseIntOpt : Option String → Option Int
  | none => none
  | some s => jsParseInt s

/-! ## JavaScript number operations (`Option Int`, `none` = NaN/undefined) -/

/-- A JavaScript number appearing in the simulator: an exactly-represented
integer, or NaN (`none`).  Reads of out-of-range register indices yield
`undefined`, which behaves as NaN in every numeric context below. -/
abbrev JsNum := Option Int

def jsAdd : JsNum → JsNum → JsNum
  | some a, some b => some (roundF64 (a + b))
  | _, _ => none

def jsSub : JsNum → JsNum → JsNum
  | some a, some b => some (roundF64 (a - b))
  | _, _ => none

def jsMul : JsNum → JsNum → JsNum
  | some a, some b => some (roundF64 (a * b))
  | _, _ => none

/-- The coercion `x | 0` (equivalently `ToInt32`): NaN and undefined go to `0`. -/
def jsOr0 : JsNum → Int
  | some a => toInt32 a
  | none => 0

/-- Bitwise `x & y` on JavaScript numbers. -/
def jsAnd (x y : JsNum) : Int :=
  toInt32 (Int.ofNat (natBitAnd (toUint32 (jsOr0 x)).toNat (toUint32 (jsOr0 y)).toNat))

/-- Bitwise `x | y` on JavaScript numbers. -/
def jsOrb (x y : JsNum) : Int :=
  toInt32 (Int.ofNat (natBitOr (toUint32 (jsOr0 x)).toNat (toUint32 (jsOr0 y)).toNat))

/-- Shift `x << y`: shift count is `ToUint32(y) mod 32`, the result is an int32. -/
def jsShl (x y : JsNum) : Int :=
  toInt32 (jsOr0 x * 2 ^ (toUint32 (jsOr0 y) % 32).toNat)

/-- Comparison `x < y` on JavaScript numbers: any comparison involving NaN is false. -/
def jsLtB : JsNum → JsNum → Bool
  | some a, some b => decide (a < b)
  | _, _ => false

/-- Rendering of a number in a template literal (`NaN` for NaN). -/
def showNumNaN : JsNum → String
  | some v => intToStr v
  | none => "NaN"

/-- Rendering of a possibly-`undefined` register read in a template literal. -/
def showValUndef : JsNum → String
  | some v => intToStr v
  | none => "undefined"

/-! ## Register-token resolution and the data memory -/

/-- The resolver `getRegIndex`: strip every non-digit, `parseInt` the remainder, and map
NaN (no digits at all) to `0`. -/
def getRegIndexStr (regName : String) : Nat :=
  let clean := regName.data.filter (fun c => 48 ≤ c.toNat ∧ c.toNat ≤ 57)
  match parseDecGo clean 0 false with
  | none => 0
  | some n => (roundF64 (n : Int)).toNat

/-- A data-memory key: the stringified address.  All NaN addresses collapse
to the single property key `"NaN"`, modelled by `none`. -/
abbrev MemKey := Option Int

/-- The sparse data memory: a JavaScript object, here an insertion-ordered
association list.  A stored value can be `undefined` (`none`) when an
out-of-range register was the store's data source. -/
abbrev DataMem := List (MemKey × JsNum)

def memGet (mem : DataMem) (k : MemKey) : Option JsNum :=
  match mem with
  | [] => none
  | (k', v) :: rest => if k' = k then some v else memGet rest k

def memSet (mem : DataMem) (k : MemKey) (v : JsNum) : DataMem :=
  match mem with
  | [] => [(k, v)]
  | (k', v') :: rest => if k' = k then (k', v) :: rest else (k', v') :: memSet rest k v

/-- The read `this.dataMemory[addr] || 0`: absent entries, stored `undefined` and a
stored `0` all produce `0` (JavaScript truthiness). -/
def lwOrZero : Option JsNum → Int
  | some (some v) => if v = 0 then 0 else v
  | _ => 0

/-! ## Machine state -/

/-- One entry of `instrMemory`: `{addr, text, binary}`. -/
structure Instr where
  addr : Int
  text : String
  binary : String
deriving DecidableEq, Repr

/-- The whole simulator state touched by the core (the DOM side effects of
`log` and `updateMemoryView` are represented by the `logs` list alone). -/
structure Machine where
  pc : Int
  regs : List Int
  instrMemory : List Instr
  dataMemory : DataMem
  halted : Bool
  logs : List String
deriving DecidableEq, Repr

/-- The method `reset()`. -/
def resetState : Machine :=
  { pc := 0, regs := List.replicate 32 0, instrMemory := [], dataMemory := [],
    halted := true, logs := [] }

/-- The method `this.log(msg)` (state part). -/
def logM (m : Machine) (msg : String) : Machine := { m with logs := m.logs ++ [msg] }

/-- Assignment `this.regs[idx] = v` on the `Int32Array`: out-of-range writes are
discarded, stored values pass through `ToInt32`. -/
def setReg (regs : List Int) (idx : Nat) (v : Int) : List Int :=
  regs.set idx (toInt32 v)

/-! ## Loading a program (both variants) -/

/-- Method `generateFakeBinary` of the first variant: tokens come from
`instr.replace(/,/g, ' ').split(/\s+/)`. -/
def generateFakeBinaryA (instr : String) : String :=
  let parts := jsSplitWs (replaceChar ',' ' ' instr)
  let op := jsToUpper (parts.headD "")
  let opcode :=
    if op = "ADD" ∨ op = "SUB" ∨ op = "AND" ∨ op = "OR" ∨ op = "SLT" then "0110011"
    else if op = "MULT" then "0110011"
    else if op = "ADDI" ∨ op = "SLTI" then "0010011"
    else if op = "LW" then "0000011"
    else if op = "SW" then "0100011"
    else if op = "PRINT" then "1110011"
    else "0000000"
  "??????? ????? ????? ??? " ++ opcode

/-- Method `generateFakeBinary` of the `script.js` variant: the mnemonic is
`instr.split(' ')[0]` and the opcode table is smaller (it knows `BEQ` but not
`AND`/`OR`/`SLT`/`MULT`/`SLTI`/`PRINT`). -/
def generateFakeBinaryB (instr : String) : String :=
  let op := jsToUpper ((jsSplitChar ' ' instr).headD "")
  let opcode :=
    if op = "ADD" ∨ op = "SUB" then "0110011"
    else if op = "LW" then "0000011"
    else if op = "SW" then "0100011"
    else if op = "ADDI" then "0010011"
    else if op = "BEQ" then "1100011"
    else "0000000"
  "??????? ????? ????? ??? " ++ opcode

/-- Body of the `forEach` in `loadProgram`: trim the line; skip it when empty
or starting with `#`; otherwise append an instruction record at the current
address and advance the address by 4. -/
def loadStep (gen : String → String) (acc : List Instr × Int) (line : String) :
    List Instr × Int :=
  let cleanLine := jsTrim line
  if cleanLine ≠ "" ∧ startsWithHash cleanLine = false then
    (acc.1 ++ [{ addr := acc.2, text := cleanLine, binary := gen cleanLine }], acc.2 + 4)
  else acc

/-- Method `loadProgram` of the first variant. -/
def loadProgramA (text : String) : Machine :=
  let m0 := resetState
  let lines := jsSplitChar '\n' text
  let res := lines.foldl (loadStep generateFakeBinaryA) ([], 0)
  let m1 := { m0 with instrMemory := res.1 }
  let m2 := if m1.instrMemory.length > 0 then { m1 with halted := false } else m1
  logM m2 "Programa carregado. PC inicializado em 0."

/-- Method `loadProgram` of the `script.js` variant (same logic, other binary
generator and load message). -/
def loadProgramB (text : String) : Machine :=
  let m0 := resetState
  let lines := jsSplitChar '\n' text
  let res := lines.foldl (loadStep generateFakeBinaryB) ([], 0)
  let m1 := { m0 with instrMemory := res.1 }
  let m2 := if m1.instrMemory.length > 0 then { m1 with halted := false } else m1
  logM m2 "Programa carregado. PC = 0"

/-! ## The fetch-decode-execute step (both variants) -/

/-- Fetch: `this.instrMemory.find(i => i.addr === this.pc)`. -/
def fetchInstr (m : Machine) : Option Instr :=
  m.instrMemory.find? (fun i => i.addr == m.pc)

/-- Decode tokenisation:
`text.replace(/,/g, ' ').replace(/\(/g, ' ').replace(/\)/g, ' ').split(/\s+/)`. -/
def tokenizeStep (text : String) : List String :=
  jsSplitWs (replaceChar ')' ' ' (replaceChar '(' ' ' (replaceChar ',' ' ' text)))

/-- The `try` block of `step()` in the first variant, returning the new
register file, the new data memory and the accumulated trace line, or
`Except.error` when a JavaScript `TypeError` is thrown.  A `getRegIndex` call
on a missing token (`undefined.replace`) is the only statement of the block
that can throw, so every `const r = this.getRegIndex(parts[i])` is rendered
as a `match` on `parts[i]?` followed by `getRegIndexStr`. -/
def execBodyA (regs : List Int) (mem : DataMem) (parts : List String) (op : String)
    (logMsg : String) : Except Unit (List Int × DataMem × String) :=
  if op ∈ ["ADD", "SUB", "AND", "OR", "SLT", "MULT", "SLL"] then
    match parts[1]?, parts[2]?, parts[3]? with
    | some p1, some p2, some p3 =>
      let rd := getRegIndexStr p1
      let rs1 := getRegIndexStr p2
      let rs2 := getRegIndexStr p3
      let v1 := regs[rs1]?
      let v2 := regs[rs2]?
      let res : Int :=
        if op = "ADD" then jsOr0 (jsAdd v1 v2)
        else if op = "SUB" then jsOr0 (jsSub v1 v2)
        else if op = "MULT" then jsOr0 (jsMul v1 v2)
        else if op = "AND" then jsOr0 (some (jsAnd v1 v2))
        else if op = "OR" then jsOr0 (some (jsOrb v1 v2))
        else if op = "SLT" then (if jsLtB v1 v2 then 1 else 0)
        else if op = "SLL" then jsOr0 (some (jsShl v1 v2))
        else 0
      let regs' := if rd ≠ 0 then setReg regs rd res else regs
      Except.ok (regs', mem, logMsg)
    | _, _, _ => Except.error ()
  else if op ∈ ["ADDI", "SLTI"] then
    match parts[1]?, parts[2]? with
    | some p1, some p2 =>
      let rd := getRegIndexStr p1
      let rs1 := getRegIndexStr p2
      let imm := jsParseIntOpt parts[3]?
      let v1 := regs[rs1]?
      let res : Int :=
        if op = "ADDI" then jsOr0 (jsAdd v1 imm)
        else if op = "SLTI" then (if jsLtB v1 imm then 1 else 0)
        else 0
      let regs' := if rd ≠ 0 then setReg regs rd res else regs
      Except.ok (regs', mem, logMsg)
    | _, _ => Except.error ()
  else if op = "LW" then
    match parts[1]?, parts[2]? with
    | some p1, some p2 =>
      let rd := getRegIndexStr p1
      let rs1 := getRegIndexStr p2
      let offset := jsParseIntOpt parts[3]?
      let addr := jsAdd regs[rs1]? offset
      let val := lwOrZero (memGet mem addr)
      let regs' := if rd ≠ 0 then setReg regs rd val else regs
      Except.ok (regs', mem, logMsg ++ " -> Leu " ++ intToStr val ++ " do end "
        ++ showNumNaN addr)
    | _, _ => Except.error ()
  else if op = "SW" then
    match parts[1]?, parts[2]? with
    | some p1, some p2 =>
      let rs2 := getRegIndexStr p1
      let rs1 := getRegIndexStr p2
      let offset := jsParseIntOpt parts[3]?
      let addr := jsAdd regs[rs1]? offset
      let mem' := memSet mem addr regs[rs2]?
      Except.ok (regs, mem', logMsg ++ " -> Salvou " ++ showValUndef regs[rs2]?
        ++ " no end " ++ showNumNaN addr)
    | _, _ => Except.error ()
  else if op = "PRINT" then
    match parts[1]? with
    | some p1 =>
      let reg := getRegIndexStr p1
      let val := regs[reg]?
      Except.ok (regs, mem, logMsg ++ " >> SAÍDA: " ++ showValUndef val)
    | none => Except.error ()
  else
    Except.ok (regs, mem, logMsg)

/-- The `try` block of `step()` in the `script.js` variant: arithmetic and
immediate instructions share one branch (`rd` and `rs1` are resolved first,
then the branch splits on `ADDI`/`SLTI`), `res` is built by a sequence of
non-exclusive `if` statements over an initial `0`, and the `LW` branch first
evaluates the (dead) `parts[2].includes('(')` test, which throws exactly when
that token is missing — the same condition under which the first variant's
`getRegIndex(parts[2])` throws. -/
def execBodyB (regs : List Int) (mem : DataMem) (parts : List String) (op : String)
    (logMsg : String) : Except Unit (List Int × DataMem × String) :=
  if op ∈ ["ADD", "SUB", "AND", "OR", "SLT", "MULT", "ADDI", "SLTI", "SLL"] then
    match parts[1]?, parts[2]? with
    | some p1, some p2 =>
      let rd := getRegIndexStr p1
      let rs1 := getRegIndexStr p2
      if op ∈ ["ADDI", "SLTI"] then
        let imm := jsParseIntOpt parts[3]?
        let v1 := regs[rs1]?
        let res : Int := 0
        let res := if op = "ADDI" then jsOr0 (jsAdd v1 imm) else res
        let res := if op = "SLTI" then (if jsLtB v1 imm then 1 else 0) else res
        let regs' := if rd ≠ 0 then setReg regs rd res else regs
        Except.ok (regs', mem, logMsg)
      else
        match parts[3]? with
        | some p3 =>
          let rs2 := getRegIndexStr p3
          let v1 := regs[rs1]?
          let v2 := regs[rs2]?
          let res : Int := 0
          let res := if op = "ADD" then jsOr0 (jsAdd v1 v2) else res
          let res := if op = "SUB" then jsOr0 (jsSub v1 v2) else res
          let res := if op = "MULT" then jsOr0 (jsMul v1 v2) else res
          let res := if op = "AND" then jsOr0 (some (jsAnd v1 v2)) else res
          let res := if op = "OR" then jsOr0 (some (jsOrb v1 v2)) else res
          let res := if op = "SLT" then (if jsLtB v1 v2 then 1 else 0) else res
          let res := if op = "SLL" then jsOr0 (some (jsShl v1 v2)) else res
          let regs' := if rd ≠ 0 then setReg regs rd res else regs
          Except.ok (regs', mem, logMsg)
        | none => Except.error ()
    | _, _ => Except.error ()
  else if op = "LW" then
    match parts[1]?, parts[2]? with
    | some p1, some p2 =>
      let rd := getRegIndexStr p1
      let rs1 := getRegIndexStr p2
      let offset := jsParseIntOpt parts[3]?
      let addr := jsAdd regs[rs1]? offset
      let val := lwOrZero (memGet mem addr)
      let regs' := if rd ≠ 0 then setReg regs rd val else regs
      Except.ok (regs', mem, logMsg ++ " -> Leu " ++ intToStr val ++ " do end "
        ++ showNumNaN addr)
    | _, _ => Except.error ()
  else if op = "SW" then
    match parts[1]?, parts[2]? with
    | some p1, some p2 =>
      let rs2 := getRegIndexStr p1
      let rs1 := getRegIndexStr p2
      let offset := jsParseIntOpt parts[3]?
      let addr := jsAdd regs[rs1]? offset
      let mem' := memSet mem addr regs[rs2]?
      Except.ok (regs, mem', logMsg ++ " -> Salvou " ++ showValUndef regs[rs2]?
        ++ " no end " ++ showNumNaN addr)
    | _, _ => Except.error ()
  else if op = "PRINT" then
    match parts[1]? with
    | some p1 =>
      let reg := getRegIndexStr p1
      let val := regs[reg]?
      Except.ok (regs, mem, logMsg ++ " >> SAÍDA: " ++ showValUndef val)
    | none => Except.error ()
  else
    Except.ok (regs, mem, logMsg)

/-- Method `step()` of the first variant.  The first component of the result models
the JavaScript return value: `some binary` for the success object
`{executed: true, binary}`, `none` for `false`. -/
def stepA (m : Machine) : Option String × Machine :=
  if m.halted then (none, m)
  else
    match fetchInstr m with
    | none =>
      let m1 := { m with halted := true }
      (none, logM m1 "Fim do programa (PC sem instrução correspondente).")
    | some currentInstr =>
      let parts := tokenizeStep currentInstr.text
      let op := jsToUpper (parts.headD "")
      let logMsg := "PC[" ++ intToStr m.pc ++ "]: " ++ currentInstr.text
      match execBodyA m.regs m.dataMemory parts op logMsg with
      | Except.ok (regs', mem', logMsg') =>
        let m1 := { m with regs := regs', dataMemory := mem' }
        let m2 := logM m1 logMsg'
        let m3 := { m2 with pc := m2.pc + 4 }
        (some currentInstr.binary, m3)
      | Except.error _ =>
        -- the JavaScript log line continues with `: ${e.message}`; the
        -- engine-supplied exception text is not modelled
        let m1 := logM m ("ERRO CRÍTICO na linha " ++ intToStr m.pc)
        (none, { m1 with halted := true })

/-- Method `step()` of the `script.js` variant (same shell, other execute body and
other end-of-program/error messages). -/
def stepB (m : Machine) : Option String × Machine :=
  if m.halted then (none, m)
  else
    match fetchInstr m with
    | none =>
      let m1 := { m with halted := true }
      (none, logM m1 "Fim do programa (PC fora de limite).")
    | some currentInstr =>
      let parts := tokenizeStep currentInstr.text
      let op := jsToUpper (parts.headD "")
      let logMsg := "PC[" ++ intToStr m.pc ++ "]: " ++ currentInstr.text
      match execBodyB m.regs m.dataMemory parts op logMsg with
      | Except.ok (regs', mem', logMsg') =>
        let m1 := { m with regs := regs', dataMemory := mem' }
        let m2 := logM m1 logMsg'
        let m3 := { m2 with pc := m2.pc + 4 }
        (some currentInstr.binary, m3)
      | Except.error _ =>
        -- as in the other variant, the `: ${e.message}` suffix is not modelled
        let m1 := logM m ("ERRO na linha " ++ intToStr m.pc)
        (none, { m1 with halted := true })

/-! ## Iterated stepping -/

def runA : Nat → Machine → Machine
  | 0, m => m
  | n + 1, m => runA n (stepA m).2

def runB : Nat → Machine → Machine
  | 0, m => m
  | n + 1, m => runB n (stepB m).2

/-- Returns `true` iff each of the first `n` calls of `step()` returns a success
object. -/
def allOkA : Nat → Machine → Bool
  | 0, _ => true
  | n + 1, m => (stepA m).1.isSome && allOkA n (stepA m).2

def allOkB : Nat → Machine → Bool
  | 0, _ => true
  | n + 1, m => (stepB m).1.isSome && allOkB n (stepB m).2

/-- The success/failure outcomes of the first `n` calls of `step()`. -/
def okTraceA : Nat → Machine → List Bool
  | 0, _ => []
  | n + 1, m => (stepA m).1.isSome :: okTraceA n (stepA m).2

def okTraceB : Nat → Machine → List Bool
  | 0, _ => []
  | n + 1, m => (stepB m).1.isSome :: okTraceB n (stepB m).2

/-! ## Spec-level description of loading (for the tokenizer/assembler claim) -/

/-- The spec's description of the assembler: process lines in order; a line
that trims to empty or starts with `#` is skipped and consumes no address;
every other line becomes a record `(address, trimmed text)` at the next
sequential address, starting at `0` and incrementing by `4` per accepted
line. -/
def specInstrs : List String → Int → List (Int × String)
  | [], _ => []
  | l :: ls, addr =>
    let c := jsTrim l
    if c ≠ "" ∧ startsWithHash c = false then (addr, c) :: specInstrs ls (addr + 4)
    else specInstrs ls addr

/-- The address/text core of an instruction record (what the two duplicated
variants agree on — the cosmetic `binary` strings differ). -/
def instrCore (i : Instr) : Int × String := (i.addr, i.text)

/-! ## Numeric helper lemmas -/

theorem roundF64Nat_eq_of_lt {n : Nat} (h : n < 9007199254740992) : roundF64Nat n = n := by
  unfold roundF64Nat
  simp [h]

/-- Integers of magnitude below `2^53` are exactly representable as doubles. -/
theorem roundF64_eq_of_lt {n : Int} (h : n.natAbs < 9007199254740992) : roundF64 n = n := by
  unfold roundF64
  split_ifs with hn
  · rw [roundF64Nat_eq_of_lt h]
    omega
  · rw [roundF64Nat_eq_of_lt h]
    omega

theorem toInt32_lb (n : Int) : -2147483648 ≤ toInt32 n := by
  unfold toInt32
  have := Int.emod_nonneg (n + 2147483648) (by norm_num : (4294967296 : Int) ≠ 0)
  omega

theorem toInt32_ub (n : Int) : toInt32 n < 2147483648 := by
  unfold toInt32
  have := Int.emod_lt_of_pos (n + 2147483648) (by norm_num : (0 : Int) < 4294967296)
  omega

theorem toInt32_eq_of_range {n : Int} (h1 : -2147483648 ≤ n) (h2 : n < 2147483648) :
    toInt32 n = n := by
  unfold toInt32
  rw [Int.emod_eq_of_lt (by omega) (by omega)]
  omega

theorem toInt32_idem (n : Int) : toInt32 (toInt32 n) = toInt32 n :=
  toInt32_eq_of_range (toInt32_lb n) (toInt32_ub n)

/-- The map `toInt32` only depends on the argument modulo `2^32`. -/
theorem toInt32_emod (n : Int) : toInt32 (n % 4294967296) = toInt32 n := by
  unfold toInt32
  congr 1
  exact Int.emod_add_emod n 4294967296 2147483648

/-! ## Register-file helper lemmas -/

theorem getElem?_setReg_self {regs : List Int} {i : Nat} (v : Int) (h : i < regs.length) :
    (setReg regs i v)[i]? = some (toInt32 v) := by
  unfold setReg
  rw [List.getElem?_set_self h]

theorem getElem?_setReg_ne {regs : List Int} {i j : Nat} (h : i ≠ j) (v : Int) :
    (setReg regs i v)[j]? = regs[j]? := by
  unfold setReg
  rw [List.getElem?_set_ne h]

theorem length_setReg (regs : List Int) (i : Nat) (v : Int) :
    (setReg regs i v).length = regs.length := by
  unfold setReg
  exact List.length_set regs i (toInt32 v)

/-! ## Shape lemmas about the execute bodies and the step shell -/

set_option maxHeartbeats 1000000 in
/-- Any register file produced by a successful execute body of the first
variant is either the old one or a write-back `setReg regs i v` with `i ≠ 0`. -/
theorem execBodyA_ok_regsP (P : List Int → Prop)
    {regs : List Int} {mem : DataMem} {parts : List String}
    {op lg : String} {regs' : List Int} {mem' : DataMem} {lg' : String}
    (h : execBodyA regs mem parts op lg = Except.ok (regs', mem', lg'))
    (hregs : P regs) (hwb : ∀ i v, i ≠ 0 → P (setReg regs i v)) : P regs' := by
  unfold execBodyA at h
  split_ifs at h <;>
  first
  | (split at h <;>
     cases h <;>
     first
     | exact hregs
     | (split
        · exact hwb _ _ (by assumption)
        · exact hregs))
  | (cases h; exact hregs)

set_option maxHeartbeats 1000000 in
/-- Any data memory produced by a successful execute body of the first
variant is either the old one or a single store `memSet mem k v`. -/
theorem execBodyA_ok_memP (P : DataMem → Prop)
    {regs : List Int} {mem : DataMem} {parts : List String}
    {op lg : String} {regs' : List Int} {mem' : DataMem} {lg' : String}
    (h : execBodyA regs mem parts op lg = Except.ok (regs', mem', lg'))
    (hmem : P mem) (hset : ∀ k v, P (memSet mem k v)) : P mem' := by
  unfold execBodyA at h
  split_ifs at h <;>
  first
  | (split at h <;>
     cases h <;>
     first
     | exact hmem
     | exact hset _ _)
  | (cases h; exact hmem)

set_option maxHeartbeats 4000000 in
/-- The two `try` blocks are extensionally equal: both variants execute every
instruction identically (the surrounding shells differ only in trace text and
in the cosmetic `binary` string of the success result). -/
theorem execBody_eq (regs : List Int) (mem : DataMem) (parts : List String)
    (op lg : String) :
    execBodyB regs mem parts op lg = execBodyA regs mem parts op lg := by
  by_cases h9 : op ∈ ["ADD", "SUB", "AND", "OR", "SLT", "MULT", "ADDI", "SLTI", "SLL"]
  · simp only [List.mem_cons, List.not_mem_nil, or_false] at h9
    rcases h9 with rfl | rfl | rfl | rfl | rfl | rfl | rfl | rfl | rfl <;>
      (cases h1 : parts[1]? <;> cases h2 : parts[2]? <;> cases h3 : parts[3]? <;>
        simp [execBodyA, execBodyB, h1, h2, h3])
  · have h7 : op ∉ ["ADD", "SUB", "AND", "OR", "SLT", "MULT", "SLL"] := by
      intro hc
      apply h9
      simp only [List.mem_cons, List.not_mem_nil, or_false] at hc ⊢
      tauto
    have h2 : op ∉ ["ADDI", "SLTI"] := by
      intro hc
      apply h9
      simp only [List.mem_cons, List.not_mem_nil, or_false] at hc ⊢
      tauto
    unfold execBodyA execBodyB
    rw [if_neg h9, if_neg h7, if_neg h2]


theorem stepA_of_halted {m : Machine} (h : m.halted = true) : stepA m = (none, m) := by
  unfold stepA
  rw [h]
  rfl

theorem stepA_ok {m : Machine} {i : Instr} {r : List Int} {mm : DataMem} {l : String}
    (hh : m.halted = false) (hf : fetchInstr m = some i)
    (hex : execBodyA m.regs m.dataMemory (tokenizeStep i.text)
        (jsToUpper ((tokenizeStep i.text).headD ""))
        ("PC[" ++ intToStr m.pc ++ "]: " ++ i.text) = Except.ok (r, mm, l)) :
    stepA m = (some i.binary,
      { m with regs := r, dataMemory := mm, logs := m.logs ++ [l], pc := m.pc + 4 }) := by
  unfold stepA
  rw [hh, hf]
  simp only [Bool.false_eq_true, if_false]
  rw [hex]
  rfl

theorem stepA_err {m : Machine} {i : Instr}
    (hh : m.halted = false) (hf : fetchInstr m = some i)
    (hex : execBodyA m.regs m.dataMemory (tokenizeStep i.text)
        (jsToUpper ((tokenizeStep i.text).headD ""))
        ("PC[" ++ intToStr m.pc ++ "]: " ++ i.text) = Except.error ()) :
    stepA m = (none,
      { m with logs := m.logs ++ ["ERRO CRÍTICO na linha " ++ intToStr m.pc],
               halted := true }) := by
  unfold stepA
  rw [hh, hf]
  simp only [Bool.false_eq_true, if_false]
  rw [hex]
  rfl

theorem stepA_miss {m : Machine}
    (hh : m.halted = false) (hf : fetchInstr m = none) :
    stepA m = (none,
      { m with halted := true,
               logs := m.logs ++ ["Fim do programa (PC sem instrução correspondente)."] }) := by
  unfold stepA
  rw [hh, hf]
  simp only [Bool.false_eq_true, if_false]
  rfl

theorem stepB_of_halted {m : Machine} (h : m.halted = true) : stepB m = (none, m) := by
  unfold stepB
  rw [h]
  rfl

theorem stepB_ok {m : Machine} {i : Instr} {r : List Int} {mm : DataMem} {l : String}
    (hh : m.halted = false) (hf : fetchInstr m = some i)
    (hex : execBodyB m.regs m.dataMemory (tokenizeStep i.text)
        (jsToUpper ((tokenizeStep i.text).headD ""))
        ("PC[" ++ intToStr m.pc ++ "]: " ++ i.text) = Except.ok (r, mm, l)) :
    stepB m = (some i.binary,
      { m with regs := r, dataMemory := mm, logs := m.logs ++ [l], pc := m.pc + 4 }) := by
  unfold stepB
  rw [hh, hf]
  simp only [Bool.false_eq_true, if_false]
  rw [hex]
  rfl

theorem stepB_err {m : Machine} {i : Instr}
    (hh : m.halted = false) (hf : fetchInstr m = some i)
    (hex : execBodyB m.regs m.dataMemory (tokenizeStep i.text)
        (jsToUpper ((tokenizeStep i.text).headD ""))
        ("PC[" ++ intToStr m.pc ++ "]: " ++ i.text) = Except.error ()) :
    stepB m = (none,
      { m with logs := m.logs ++ ["ERRO na linha " ++ intToStr m.pc],
               halted := true }) := by
  unfold stepB
  rw [hh, hf]
  simp only [Bool.false_eq_true, if_false]
  rw [hex]
  rfl

theorem stepB_miss {m : Machine}
    (hh : m.halted = false) (hf : fetchInstr m = none) :
    stepB m = (none,
      { m with halted := true,
               logs := m.logs ++ ["Fim do programa (PC fora de limite)."] }) := by
  unfold stepB
  rw [hh, hf]
  simp only [Bool.false_eq_true, if_false]
  rfl


/-! ## Core-state equivalence of the two variants -/

/-- The observable core state the two duplicated variants are compared on:
program counter, halt flag, registers, data memory, and the address/text part
of the instruction list (their cosmetic `binary` strings and their log texts
differ between the variants). -/
def CoreEq (m1 m2 : Machine) : Prop :=
  m1.pc = m2.pc ∧ m1.halted = m2.halted ∧ m1.regs = m2.regs ∧
  m1.dataMemory = m2.dataMemory ∧
  m1.instrMemory.map instrCore = m2.instrMemory.map instrCore

theorem find?_core {l1 l2 : List Instr}
    (h : l1.map instrCore = l2.map instrCore) (pc : Int) :
    Option.map instrCore (l1.find? (fun i => i.addr == pc)) =
    Option.map instrCore (l2.find? (fun i => i.addr == pc)) := by
  induction l1 generalizing l2 with
  | nil =>
    cases l2 with
    | nil => rfl
    | cons b bs => simp at h
  | cons a as ih =>
    cases l2 with
    | nil => simp at h
    | cons b bs =>
      simp only [List.map_cons, List.cons.injEq] at h
      obtain ⟨hab, hrest⟩ := h
      have haddr : a.addr = b.addr := congrArg Prod.fst hab
      cases hpc : (a.addr == pc) with
      | true =>
        have hpcb : (b.addr == pc) = true := by
          rw [← haddr]
          exact hpc
        simp only [List.find?_cons, hpc, hpcb, Option.map_some]
        exact congrArg some hab
      | false =>
        have hpcb : (b.addr == pc) = false := by
          rw [← haddr]
          exact hpc
        simp only [List.find?_cons, hpc, hpcb]
        exact ih hrest

theorem fetch_core {m1 m2 : Machine}
    (hinstr : m1.instrMemory.map instrCore = m2.instrMemory.map instrCore)
    (hpc : m1.pc = m2.pc) :
    Option.map instrCore (fetchInstr m1) = Option.map instrCore (fetchInstr m2) := by
  unfold fetchInstr
  rw [← hpc]
  exact find?_core hinstr m1.pc

/-- One step preserves core equivalence, and the two variants agree on
success versus `false`. -/
theorem step_core {m1 m2 : Machine} (h : CoreEq m1 m2) :
    (stepA m1).1.isSome = (stepB m2).1.isSome ∧ CoreEq (stepA m1).2 (stepB m2).2 := by
  obtain ⟨hpc, hhalt, hregs, hmem, hinstr⟩ := h
  by_cases hh : m1.halted = true
  · have hh2 : m2.halted = true := hhalt ▸ hh
    rw [stepA_of_halted hh, stepB_of_halted hh2]
    exact ⟨rfl, hpc, hhalt, hregs, hmem, hinstr⟩
  · have hh1 : m1.halted = false := by
      cases hq : m1.halted
      · rfl
      · exact absurd hq hh
    have hh2 : m2.halted = false := hhalt ▸ hh1
    have hfind := fetch_core hinstr hpc
    cases hf1 : fetchInstr m1 with
    | none =>
      have hf2 : fetchInstr m2 = none := by
        rw [hf1] at hfind
        cases hq : fetchInstr m2 with
        | none => rfl
        | some b =>
          rw [hq] at hfind
          simp at hfind
      rw [stepA_miss hh1 hf1, stepB_miss hh2 hf2]
      exact ⟨rfl, hpc, rfl, hregs, hmem, hinstr⟩
    | some i1 =>
      rw [hf1] at hfind
      have hex2 : ∃ i2, fetchInstr m2 = some i2 ∧ instrCore i1 = instrCore i2 := by
        cases hq : fetchInstr m2 with
        | none =>
          rw [hq] at hfind
          simp at hfind
        | some b =>
          rw [hq] at hfind
          simp at hfind
          exact ⟨b, rfl, hfind⟩
      obtain ⟨i2, hf2, hcore⟩ := hex2
      have htext : i1.text = i2.text := congrArg Prod.snd hcore
      have hbody := execBody_eq m2.regs m2.dataMemory (tokenizeStep i2.text)
        (jsToUpper ((tokenizeStep i2.text).headD ""))
        ("PC[" ++ intToStr m2.pc ++ "]: " ++ i2.text)
      cases hex : execBodyA m1.regs m1.dataMemory (tokenizeStep i1.text)
          (jsToUpper ((tokenizeStep i1.text).headD ""))
          ("PC[" ++ intToStr m1.pc ++ "]: " ++ i1.text) with
      | error e =>
        cases e
        have hexB : execBodyB m2.regs m2.dataMemory (tokenizeStep i2.text)
            (jsToUpper ((tokenizeStep i2.text).headD ""))
            ("PC[" ++ intToStr m2.pc ++ "]: " ++ i2.text) = Except.error () := by
          rw [hbody, ← htext, ← hregs, ← hmem, ← hpc]
          exact hex
        rw [stepA_err hh1 hf1 hex, stepB_err hh2 hf2 hexB]
        exact ⟨rfl, hpc, rfl, hregs, hmem, hinstr⟩
      | ok x =>
        obtain ⟨r, mm, l⟩ := x
        have hexB : execBodyB m2.regs m2.dataMemory (tokenizeStep i2.text)
            (jsToUpper ((tokenizeStep i2.text).headD ""))
            ("PC[" ++ intToStr m2.pc ++ "]: " ++ i2.text) = Except.ok (r, mm, l) := by
          rw [hbody, ← htext, ← hregs, ← hmem, ← hpc]
          exact hex
        rw [stepA_ok hh1 hf1 hex, stepB_ok hh2 hf2 hexB]
        refine ⟨rfl, ?_, hhalt, rfl, rfl, hinstr⟩
        show m1.pc + 4 = m2.pc + 4
        rw [hpc]


/-! ## Loading: core equivalence and spec-level characterisation -/

theorem loadFold_core (gen1 gen2 : String → String) (lines : List String) :
    ∀ (acc1 acc2 : List Instr) (addr : Int), acc1.map instrCore = acc2.map instrCore →
      (lines.foldl (loadStep gen1) (acc1, addr)).1.map instrCore =
        (lines.foldl (loadStep gen2) (acc2, addr)).1.map instrCore ∧
      (lines.foldl (loadStep gen1) (acc1, addr)).2 =
        (lines.foldl (loadStep gen2) (acc2, addr)).2 := by
  induction lines with
  | nil =>
    intro acc1 acc2 addr h
    exact ⟨h, rfl⟩
  | cons l ls ih =>
    intro acc1 acc2 addr h
    simp only [List.foldl_cons, loadStep]
    split_ifs with hc
    · apply ih
      simp only [List.map_append, h, List.map_cons, List.map_nil, instrCore]
    · exact ih _ _ _ h

theorem loadFold_spec (gen : String → String) (lines : List String) :
    ∀ (acc : List Instr) (addr : Int),
      (lines.foldl (loadStep gen) (acc, addr)).1.map instrCore =
        acc.map instrCore ++ specInstrs lines addr := by
  induction lines with
  | nil =>
    intro acc addr
    simp [specInstrs]
  | cons l ls ih =>
    intro acc addr
    simp only [List.foldl_cons, loadStep, specInstrs]
    split_ifs with hc
    · rw [ih]
      simp [instrCore]
    · exact ih _ _

theorem loadProgramA_pc (text : String) : (loadProgramA text).pc = 0 := by
  simp only [loadProgramA, logM]
  split <;> rfl

theorem loadProgramA_regs (text : String) :
    (loadProgramA text).regs = List.replicate 32 0 := by
  simp only [loadProgramA, logM]
  split <;> rfl

theorem loadProgramA_dataMemory (text : String) : (loadProgramA text).dataMemory = [] := by
  simp only [loadProgramA, logM]
  split <;> rfl

theorem loadProgramA_logs (text : String) :
    (loadProgramA text).logs = ["Programa carregado. PC inicializado em 0."] := by
  simp only [loadProgramA, logM]
  split <;> rfl

theorem loadProgramA_instrMemory (text : String) :
    (loadProgramA text).instrMemory =
      ((jsSplitChar '\n' text).foldl (loadStep generateFakeBinaryA) ([], 0)).1 := by
  simp only [loadProgramA, logM]
  split <;> rfl

theorem loadProgramA_halted (text : String) :
    (loadProgramA text).halted =
      !decide (0 <
        ((jsSplitChar '\n' text).foldl (loadStep generateFakeBinaryA) ([], 0)).1.length) := by
  simp only [loadProgramA, logM]
  by_cases h : 0 <
      ((jsSplitChar '\n' text).foldl (loadStep generateFakeBinaryA) ([], 0)).1.length
  · rw [if_pos h]
    simp [h]
  · rw [if_neg h]
    simp [h, resetState]


theorem loadProgramB_pc (text : String) : (loadProgramB text).pc = 0 := by
  simp only [loadProgramB, logM]
  split <;> rfl

theorem loadProgramB_regs (text : String) :
    (loadProgramB text).regs = List.replicate 32 0 := by
  simp only [loadProgramB, logM]
  split <;> rfl

theorem loadProgramB_dataMemory (text : String) : (loadProgramB text).dataMemory = [] := by
  simp only [loadProgramB, logM]
  split <;> rfl

theorem loadProgramB_instrMemory (text : String) :
    (loadProgramB text).instrMemory =
      ((jsSplitChar '\n' text).foldl (loadStep generateFakeBinaryB) ([], 0)).1 := by
  simp only [loadProgramB, logM]
  split <;> rfl

theorem loadProgramB_halted (text : String) :
    (loadProgramB text).halted =
      !decide (0 <
        ((jsSplitChar '\n' text).foldl (loadStep generateFakeBinaryB) ([], 0)).1.length) := by
  simp only [loadProgramB, logM]
  by_cases h : 0 <
      ((jsSplitChar '\n' text).foldl (loadStep generateFakeBinaryB) ([], 0)).1.length
  · rw [if_pos h]
    simp [h]
  · rw [if_neg h]
    simp [h, resetState]

/-- Loading the same text in the two variants yields core-equal machines. -/
theorem load_core (text : String) : CoreEq (loadProgramA text) (loadProgramB text) := by
  obtain ⟨hmap, _⟩ :=
    loadFold_core generateFakeBinaryA generateFakeBinaryB (jsSplitChar '\n' text) [] [] 0 rfl
  refine ⟨?_, ?_, ?_, ?_, ?_⟩
  · rw [loadProgramA_pc, loadProgramB_pc]
  · rw [loadProgramA_halted, loadProgramB_halted]
    have hlen : ((jsSplitChar '\n' text).foldl (loadStep generateFakeBinaryA) ([], 0)).1.length =
        ((jsSplitChar '\n' text).foldl (loadStep generateFakeBinaryB) ([], 0)).1.length := by
      have := congrArg List.length hmap
      simpa using this
    rw [hlen]
  · rw [loadProgramA_regs, loadProgramB_regs]
  · rw [loadProgramA_dataMemory, loadProgramB_dataMemory]
  · rw [loadProgramA_instrMemory, loadProgramB_instrMemory]
    exact hmap

/-- Iterated stepping preserves core equivalence and produces the same
success/failure outcomes. -/
theorem run_core (n : Nat) : ∀ {m1 m2 : Machine}, CoreEq m1 m2 →
    CoreEq (runA n m1) (runB n m2) ∧ okTraceA n m1 = okTraceB n m2 := by
  induction n with
  | zero => exact fun h => ⟨h, rfl⟩
  | succ n ih =>
    intro m1 m2 h
    obtain ⟨hok, hcore⟩ := step_core h
    obtain ⟨hrun, htrace⟩ := ih hcore
    refine ⟨hrun, ?_⟩
    simp only [okTraceA, okTraceB]
    rw [hok, htrace]


/-! ## Step-level invariants -/

theorem stepA_regs0 {m : Machine} (h : m.regs[0]? = some 0) :
    (stepA m).2.regs[0]? = some 0 := by
  by_cases hh : m.halted = true
  · rw [stepA_of_halted hh]
    exact h
  · have hh1 : m.halted = false := by
      simp at hh
      exact hh
    cases hf : fetchInstr m with
    | none =>
      rw [stepA_miss hh1 hf]
      exact h
    | some i =>
      cases hex : execBodyA m.regs m.dataMemory (tokenizeStep i.text)
          (jsToUpper ((tokenizeStep i.text).headD ""))
          ("PC[" ++ intToStr m.pc ++ "]: " ++ i.text) with
      | error e =>
        cases e
        rw [stepA_err hh1 hf hex]
        exact h
      | ok x =>
        obtain ⟨r, mm, l⟩ := x
        rw [stepA_ok hh1 hf hex]
        refine execBodyA_ok_regsP (fun rs => rs[0]? = some 0) hex h ?_
        intro j v hj
        show (setReg m.regs j v)[0]? = some 0
        rw [getElem?_setReg_ne hj]
        exact h

theorem runA_regs0 (n : Nat) : ∀ {m : Machine}, m.regs[0]? = some 0 →
    (runA n m).regs[0]? = some 0 := by
  induction n with
  | zero => exact fun h => h
  | succ n ih => exact fun h => ih (stepA_regs0 h)

theorem stepA_pc_of_isSome {m : Machine} (h : (stepA m).1.isSome = true) :
    (stepA m).2.pc = m.pc + 4 := by
  by_cases hh : m.halted = true
  · rw [stepA_of_halted hh] at h
    simp at h
  · have hh1 : m.halted = false := by
      simp at hh
      exact hh
    cases hf : fetchInstr m with
    | none =>
      rw [stepA_miss hh1 hf] at h
      simp at h
    | some i =>
      cases hex : execBodyA m.regs m.dataMemory (tokenizeStep i.text)
          (jsToUpper ((tokenizeStep i.text).headD ""))
          ("PC[" ++ intToStr m.pc ++ "]: " ++ i.text) with
      | error e =>
        cases e
        rw [stepA_err hh1 hf hex] at h
        simp at h
      | ok x =>
        obtain ⟨r, mm, l⟩ := x
        rw [stepA_ok hh1 hf hex]

theorem stepB_pc_of_isSome {m : Machine} (h : (stepB m).1.isSome = true) :
    (stepB m).2.pc = m.pc + 4 := by
  by_cases hh : m.halted = true
  · rw [stepB_of_halted hh] at h
    simp at h
  · have hh1 : m.halted = false := by
      simp at hh
      exact hh
    cases hf : fetchInstr m with
    | none =>
      rw [stepB_miss hh1 hf] at h
      simp at h
    | some i =>
      cases hex : execBodyB m.regs m.dataMemory (tokenizeStep i.text)
          (jsToUpper ((tokenizeStep i.text).headD ""))
          ("PC[" ++ intToStr m.pc ++ "]: " ++ i.text) with
      | error e =>
        cases e
        rw [stepB_err hh1 hf hex] at h
        simp at h
      | ok x =>
        obtain ⟨r, mm, l⟩ := x
        rw [stepB_ok hh1 hf hex]

theorem runA_pc (n : Nat) : ∀ {m : Machine}, allOkA n m = true →
    (runA n m).pc = m.pc + 4 * n := by
  induction n with
  | zero =>
    intro m _
    simp [runA]
  | succ n ih =>
    intro m h
    simp only [allOkA, Bool.and_eq_true] at h
    obtain ⟨h1, h2⟩ := h
    have hpc := stepA_pc_of_isSome h1
    have := ih h2
    show (runA n (stepA m).2).pc = m.pc + 4 * (n + 1)
    rw [this, hpc]
    ring

theorem runB_pc (n : Nat) : ∀ {m : Machine}, allOkB n m = true →
    (runB n m).pc = m.pc + 4 * n := by
  induction n with
  | zero =>
    intro m _
    simp [runB]
  | succ n ih =>
    intro m h
    simp only [allOkB, Bool.and_eq_true] at h
    obtain ⟨h1, h2⟩ := h
    have hpc := stepB_pc_of_isSome h1
    have := ih h2
    show (runB n (stepB m).2).pc = m.pc + 4 * (n + 1)
    rw [this, hpc]
    ring

/-- An unrecognised mnemonic makes the whole dispatch fall through: the
execute body returns the state unchanged with only the generic trace line. -/
theorem execBodyA_unknown {regs : List Int} {mem : DataMem} {parts : List String}
    {op lg : String}
    (hop : op ∉ ["ADD", "SUB", "AND", "OR", "SLT", "MULT", "SLL", "ADDI", "SLTI",
      "LW", "SW", "PRINT"]) :
    execBodyA regs mem parts op lg = Except.ok (regs, mem, lg) := by
  simp only [List.mem_cons, List.not_mem_nil, or_false, not_or] at hop
  obtain ⟨n1, n2, n3, n4, n5, n6, n7, n8, n9, n10, n11, n12⟩ := hop
  unfold execBodyA
  rw [if_neg, if_neg, if_neg n10, if_neg n11, if_neg n12]
  · intro hc
    simp only [List.mem_cons, List.not_mem_nil, or_false] at hc
    tauto
  · intro hc
    simp only [List.mem_cons, List.not_mem_nil, or_false] at hc
    tauto


theorem stepA_unknown {m : Machine} {i : Instr}
    (hh : m.halted = false) (hf : fetchInstr m = some i)
    (hop : jsToUpper ((tokenizeStep i.text).headD "") ∉
      ["ADD", "SUB", "AND", "OR", "SLT", "MULT", "SLL", "ADDI", "SLTI",
       "LW", "SW", "PRINT"]) :
    stepA m = (some i.binary,
      { m with regs := m.regs, dataMemory := m.dataMemory,
               logs := m.logs ++ ["PC[" ++ intToStr m.pc ++ "]: " ++ i.text],
               pc := m.pc + 4 }) :=
  stepA_ok hh hf (execBodyA_unknown hop)


/-! ## Evaluation lemmas for the execute body on four-token instructions -/

theorem execA_ADD {regs : List Int} {mem : DataMem} {t0 t1 t2 t3 lg : String}
    (hop : jsToUpper t0 = "ADD") :
    execBodyA regs mem [t0, t1, t2, t3] (jsToUpper t0) lg =
      Except.ok ((if getRegIndexStr t1 ≠ 0 then
          setReg regs (getRegIndexStr t1)
            (jsOr0 (jsAdd regs[getRegIndexStr t2]? regs[getRegIndexStr t3]?))
        else regs), mem, lg) := by
  rw [hop]
  simp [execBodyA]

theorem execA_SUB {regs : List Int} {mem : DataMem} {t0 t1 t2 t3 lg : String}
    (hop : jsToUpper t0 = "SUB") :
    execBodyA regs mem [t0, t1, t2, t3] (jsToUpper t0) lg =
      Except.ok ((if getRegIndexStr t1 ≠ 0 then
          setReg regs (getRegIndexStr t1)
            (jsOr0 (jsSub regs[getRegIndexStr t2]? regs[getRegIndexStr t3]?))
        else regs), mem, lg) := by
  rw [hop]
  simp [execBodyA]

theorem execA_MULT {regs : List Int} {mem : DataMem} {t0 t1 t2 t3 lg : String}
    (hop : jsToUpper t0 = "MULT") :
    execBodyA regs mem [t0, t1, t2, t3] (jsToUpper t0) lg =
      Except.ok ((if getRegIndexStr t1 ≠ 0 then
          setReg regs (getRegIndexStr t1)
            (jsOr0 (jsMul regs[getRegIndexStr t2]? regs[getRegIndexStr t3]?))
        else regs), mem, lg) := by
  rw [hop]
  simp [execBodyA]

theorem execA_SLL {regs : List Int} {mem : DataMem} {t0 t1 t2 t3 lg : String}
    (hop : jsToUpper t0 = "SLL") :
    execBodyA regs mem [t0, t1, t2, t3] (jsToUpper t0) lg =
      Except.ok ((if getRegIndexStr t1 ≠ 0 then
          setReg regs (getRegIndexStr t1)
            (jsOr0 (some (jsShl regs[getRegIndexStr t2]? regs[getRegIndexStr t3]?)))
        else regs), mem, lg) := by
  rw [hop]
  simp [execBodyA]

theorem execA_ADDI {regs : List Int} {mem : DataMem} {t0 t1 t2 t3 lg : String}
    (hop : jsToUpper t0 = "ADDI") :
    execBodyA regs mem [t0, t1, t2, t3] (jsToUpper t0) lg =
      Except.ok ((if getRegIndexStr t1 ≠ 0 then
          setReg regs (getRegIndexStr t1)
            (jsOr0 (jsAdd regs[getRegIndexStr t2]? (jsParseInt t3)))
        else regs), mem, lg) := by
  rw [hop]
  simp [execBodyA, jsParseIntOpt]

theorem execA_ADDI_missing {regs : List Int} {mem : DataMem} {t0 t1 lg : String}
    (hop : jsToUpper t0 = "ADDI") :
    execBodyA regs mem [t0, t1] (jsToUpper t0) lg = Except.error () := by
  rw [hop]
  simp [execBodyA]

theorem execA_LW {regs : List Int} {mem : DataMem} {t0 t1 t2 t3 lg : String}
    (hop : jsToUpper t0 = "LW") :
    execBodyA regs mem [t0, t1, t2, t3] (jsToUpper t0) lg =
      Except.ok ((if getRegIndexStr t1 ≠ 0 then
          setReg regs (getRegIndexStr t1)
            (lwOrZero (memGet mem (jsAdd regs[getRegIndexStr t2]? (jsParseInt t3))))
        else regs), mem,
        lg ++ " -> Leu "
          ++ intToStr (lwOrZero (memGet mem (jsAdd regs[getRegIndexStr t2]? (jsParseInt t3))))
          ++ " do end " ++ showNumNaN (jsAdd regs[getRegIndexStr t2]? (jsParseInt t3))) := by
  rw [hop]
  simp [execBodyA, jsParseIntOpt]

theorem execA_SW {regs : List Int} {mem : DataMem} {t0 t1 t2 t3 lg : String}
    (hop : jsToUpper t0 = "SW") :
    execBodyA regs mem [t0, t1, t2, t3] (jsToUpper t0) lg =
      Except.ok (regs,
        memSet mem (jsAdd regs[getRegIndexStr t2]? (jsParseInt t3))
          regs[getRegIndexStr t1]?,
        lg ++ " -> Salvou " ++ showValUndef regs[getRegIndexStr t1]? ++ " no end "
          ++ showNumNaN (jsAdd regs[getRegIndexStr t2]? (jsParseInt t3))) := by
  rw [hop]
  simp [execBodyA, jsParseIntOpt]

theorem execA_AND {regs : List Int} {mem : DataMem} {t0 t1 t2 t3 lg : String}
    (hop : jsToUpper t0 = "AND") :
    execBodyA regs mem [t0, t1, t2, t3] (jsToUpper t0) lg =
      Except.ok ((if getRegIndexStr t1 ≠ 0 then
          setReg regs (getRegIndexStr t1)
            (jsOr0 (some (jsAnd regs[getRegIndexStr t2]? regs[getRegIndexStr t3]?)))
        else regs), mem, lg) := by
  rw [hop]
  simp [execBodyA]

theorem execA_OR {regs : List Int} {mem : DataMem} {t0 t1 t2 t3 lg : String}
    (hop : jsToUpper t0 = "OR") :
    execBodyA regs mem [t0, t1, t2, t3] (jsToUpper t0) lg =
      Except.ok ((if getRegIndexStr t1 ≠ 0 then
          setReg regs (getRegIndexStr t1)
            (jsOr0 (some (jsOrb regs[getRegIndexStr t2]? regs[getRegIndexStr t3]?)))
        else regs), mem, lg) := by
  rw [hop]
  simp [execBodyA]

theorem execA_SLT {regs : List Int} {mem : DataMem} {t0 t1 t2 t3 lg : String}
    (hop : jsToUpper t0 = "SLT") :
    execBodyA regs mem [t0, t1, t2, t3] (jsToUpper t0) lg =
      Except.ok ((if getRegIndexStr t1 ≠ 0 then
          setReg regs (getRegIndexStr t1)
            (if jsLtB regs[getRegIndexStr t2]? regs[getRegIndexStr t3]? then 1 else 0)
        else regs), mem, lg) := by
  rw [hop]
  simp [execBodyA]

/-- Any R-type instruction with all three operand tokens present succeeds,
whatever register indices the tokens resolve to. -/
theorem execBodyA_rtype {regs : List Int} {mem : DataMem} {t0 t1 t2 t3 lg : String}
    (hop : jsToUpper t0 ∈ ["ADD", "SUB", "AND", "OR", "SLT", "MULT", "SLL"]) :
    ∃ res : Int, execBodyA regs mem [t0, t1, t2, t3] (jsToUpper t0) lg =
      Except.ok ((if getRegIndexStr t1 ≠ 0 then
          setReg regs (getRegIndexStr t1) res else regs), mem, lg) := by
  simp only [List.mem_cons, List.not_mem_nil, or_false] at hop
  rcases hop with h | h | h | h | h | h | h
  · exact ⟨_, execA_ADD h⟩
  · exact ⟨_, execA_SUB h⟩
  · exact ⟨_, execA_AND h⟩
  · exact ⟨_, execA_OR h⟩
  · exact ⟨_, execA_SLT h⟩
  · exact ⟨_, execA_MULT h⟩
  · exact ⟨_, execA_SLL h⟩

theorem execA_SLTI {regs : List Int} {mem : DataMem} {t0 t1 t2 t3 lg : String}
    (hop : jsToUpper t0 = "SLTI") :
    execBodyA regs mem [t0, t1, t2, t3] (jsToUpper t0) lg =
      Except.ok ((if getRegIndexStr t1 ≠ 0 then
          setReg regs (getRegIndexStr t1)
            (if jsLtB regs[getRegIndexStr t2]? (jsParseInt t3) then 1 else 0)
        else regs), mem, lg) := by
  rw [hop]
  simp [execBodyA, jsParseIntOpt]

/-- A register-writing instruction whose destination token resolves to
register 0 leaves the register file and the data memory untouched. -/
theorem execBodyA_rd0 {regs : List Int} {mem : DataMem} {t0 t1 t2 t3 lg : String}
    (hop : jsToUpper t0 ∈ ["ADD", "SUB", "AND", "OR", "SLT", "MULT", "SLL",
      "ADDI", "SLTI", "LW"])
    (hrd : getRegIndexStr t1 = 0) :
    ∃ l', execBodyA regs mem [t0, t1, t2, t3] (jsToUpper t0) lg =
      Except.ok (regs, mem, l') := by
  simp only [List.mem_cons, List.not_mem_nil, or_false] at hop
  have hvz : ¬ (getRegIndexStr t1 ≠ 0) := by simp [hrd]
  rcases hop with h | h | h | h | h | h | h | h | h | h
  · exact ⟨lg, by rw [execA_ADD h, if_neg hvz]⟩
  · exact ⟨lg, by rw [execA_SUB h, if_neg hvz]⟩
  · exact ⟨lg, by rw [execA_AND h, if_neg hvz]⟩
  · exact ⟨lg, by rw [execA_OR h, if_neg hvz]⟩
  · exact ⟨lg, by rw [execA_SLT h, if_neg hvz]⟩
  · exact ⟨lg, by rw [execA_MULT h, if_neg hvz]⟩
  · exact ⟨lg, by rw [execA_SLL h, if_neg hvz]⟩
  · exact ⟨lg, by rw [execA_ADDI h, if_neg hvz]⟩
  · exact ⟨lg, by rw [execA_SLTI h, if_neg hvz]⟩
  · exact ⟨lg ++ " -> Leu "
        ++ intToStr (lwOrZero (memGet mem (jsAdd regs[getRegIndexStr t2]? (jsParseInt t3))))
        ++ " do end " ++ showNumNaN (jsAdd regs[getRegIndexStr t2]? (jsParseInt t3)),
      by rw [execA_LW h, if_neg hvz]⟩

/-! ## Data-memory lemmas -/

theorem memGet_memSet_self (mem : DataMem) (k : MemKey) (v : JsNum) :
    memGet (memSet mem k v) k = some v := by
  induction mem with
  | nil => simp [memSet, memGet]
  | cons p rest ih =>
    obtain ⟨k', v'⟩ := p
    by_cases hk : k' = k
    · simp [memSet, memGet, hk]
    · simp [memSet, memGet, hk, ih]

theorem lwOrZero_stored (v : Int) : lwOrZero (some (some v)) = v := by
  by_cases hv : v = 0 <;> simp [lwOrZero, hv]

theorem jsAdd_none_right (x : JsNum) : jsAdd x none = none := by
  cases x <;> rfl


/-! ## Claim theorems -/

/-- A one-instruction machine with chosen values in registers `x1` and `x2`
(used to witness claims about single-instruction execution). -/
def mkBinTest (txt : String) (v1 v2 : Int) : Machine :=
  { pc := 0, regs := 0 :: v1 :: v2 :: List.replicate 29 0,
    instrMemory := [{ addr := 0, text := txt, binary := "" }],
    dataMemory := [], halted := false, logs := [] }

/-- C10: the two duplicated simulator variants are behaviourally
equivalent on core machine state: for every program text and every number `n`
of `step()` calls, loading and stepping `n` times in the `script.js` variant
and in the other variant yields the same program counter, halt flag, register
file and data-memory contents, and the two `step()` calls agree on success
versus `false` at every step. -/
theorem variants_equivalent (text : String) (n : Nat) :
    (runA n (loadProgramA text)).pc = (runB n (loadProgramB text)).pc ∧
    (runA n (loadProgramA text)).halted = (runB n (loadProgramB text)).halted ∧
    (runA n (loadProgramA text)).regs = (runB n (loadProgramB text)).regs ∧
    (runA n (loadProgramA text)).dataMemory = (runB n (loadProgramB text)).dataMemory ∧
    okTraceA n (loadProgramA text) = okTraceB n (loadProgramB text) := by
  obtain ⟨⟨h1, h2, h3, h4, _⟩, h6⟩ := run_core n (load_core text)
  exact ⟨h1, h2, h3, h4, h6⟩

/-- C7: `loadProgram` resets all state (registers zeroed, data memory
empty, program counter 0, no stale trace survives — only the fresh load
message), then processes lines in order: a line that trims to empty or starts
with `#` is skipped and consumes no address; every other line becomes an
instruction record at the next sequential address starting at 0 and stepping
by 4; afterwards `halted` is false iff at least one instruction was
accepted. -/
theorem loadProgram_spec (text : String) :
    (loadProgramA text).regs = List.replicate 32 0 ∧
    (loadProgramA text).dataMemory = [] ∧
    (loadProgramA text).pc = 0 ∧
    (loadProgramA text).logs = ["Programa carregado. PC inicializado em 0."] ∧
    (loadProgramA text).instrMemory.map instrCore =
      specInstrs (jsSplitChar '\n' text) 0 ∧
    ((loadProgramA text).halted = false ↔ specInstrs (jsSplitChar '\n' text) 0 ≠ []) := by
  have hmap : (loadProgramA text).instrMemory.map instrCore =
      specInstrs (jsSplitChar '\n' text) 0 := by
    rw [loadProgramA_instrMemory]
    have := loadFold_spec generateFakeBinaryA (jsSplitChar '\n' text) [] 0
    simpa using this
  refine ⟨loadProgramA_regs text, loadProgramA_dataMemory text, loadProgramA_pc text,
    loadProgramA_logs text, hmap, ?_⟩
  rw [loadProgramA_halted]
  have hlen : ((jsSplitChar '\n' text).foldl (loadStep generateFakeBinaryA) ([], 0)).1.length
      = (specInstrs (jsSplitChar '\n' text) 0).length := by
    have h1 := congrArg List.length hmap
    rw [loadProgramA_instrMemory] at h1
    simpa using h1
  rw [hlen]
  constructor
  · intro h
    intro hnil
    rw [hnil] at h
    simp at h
  · intro h
    have : 0 < (specInstrs (jsSplitChar '\n' text) 0).length := by
      cases hq : specInstrs (jsSplitChar '\n' text) 0 with
      | nil => exact absurd hq h
      | cons a as => simp [hq]
    simp [this]

/-- C4: for every loaded program, after `n` successful `step()` calls the
program counter equals `4n`: every successful step advances it by exactly 4
and nothing else modifies it (stated for both duplicated variants). -/
theorem pc_equals_4n (text : String) (n : Nat) :
    (allOkA n (loadProgramA text) = true → (runA n (loadProgramA text)).pc = 4 * n) ∧
    (allOkB n (loadProgramB text) = true → (runB n (loadProgramB text)).pc = 4 * n) := by
  constructor
  · intro h
    have h1 := runA_pc n h
    rw [loadProgramA_pc] at h1
    omega
  · intro h
    have h1 := runB_pc n h
    rw [loadProgramB_pc] at h1
    omega

theorem pc_equals_4n_witness :
    allOkA 2 (loadProgramA "ADDI x1, x0, 1\nADDI x2, x0, 2") = true ∧
    (runA 2 (loadProgramA "ADDI x1, x0, 1\nADDI x2, x0, 2")).pc = 4 * 2 ∧
    allOkB 2 (loadProgramB "ADDI x1, x0, 1\nADDI x2, x0, 2") = true ∧
    (runB 2 (loadProgramB "ADDI x1, x0, 1\nADDI x2, x0, 2")).pc = 4 * 2 := by
  have h := pc_equals_4n "ADDI x1, x0, 1\nADDI x2, x0, 2" 2
  exact ⟨by decide, h.1 (by decide), by decide, h.2 (by decide)⟩


/-- C5: a fetched instruction whose mnemonic is none of ADD, SUB, AND,
OR, SLT, MULT, SLL, ADDI, SLTI, LW, SW, PRINT is a no-op: registers and data
memory are unchanged, `halted` stays false, the program counter still
advances by 4, the step reports success, and only the generic trace line is
emitted (stated for both variants; the trace conjunct is for the first). -/
theorem unknownMnemonic_lenient (m : Machine) (i : Instr)
    (hh : m.halted = false) (hf : fetchInstr m = some i)
    (hop : jsToUpper ((tokenizeStep i.text).headD "") ∉
      ["ADD", "SUB", "AND", "OR", "SLT", "MULT", "SLL", "ADDI", "SLTI",
       "LW", "SW", "PRINT"]) :
    (stepA m).1.isSome = true ∧
    (stepA m).2.regs = m.regs ∧
    (stepA m).2.dataMemory = m.dataMemory ∧
    (stepA m).2.halted = false ∧
    (stepA m).2.pc = m.pc + 4 ∧
    (stepA m).2.logs = m.logs ++ ["PC[" ++ intToStr m.pc ++ "]: " ++ i.text] ∧
    (stepB m).1.isSome = true ∧
    (stepB m).2.regs = m.regs ∧
    (stepB m).2.dataMemory = m.dataMemory ∧
    (stepB m).2.halted = false ∧
    (stepB m).2.pc = m.pc + 4 := by
  have hstep := stepA_unknown hh hf hop
  obtain ⟨hok, cpc, chalt, cregs, cmem, _⟩ :=
    step_core (⟨rfl, rfl, rfl, rfl, rfl⟩ : CoreEq m m)
  rw [hstep] at hok cpc chalt cregs cmem
  dsimp only at hok cpc chalt cregs cmem
  refine ⟨by simp [hstep], by simp [hstep], by simp [hstep], ?_, by simp [hstep],
    by simp [hstep], hok.symm, cregs.symm, cmem.symm, ?_, cpc.symm⟩
  · simp [hstep, hh]
  · rw [← chalt]
    exact hh

theorem unknownMnemonic_lenient_witness :
    (stepA (mkBinTest "FOO x1, x2, x3" 5 7)).1.isSome = true ∧
    (stepA (mkBinTest "FOO x1, x2, x3" 5 7)).2.regs = (mkBinTest "FOO x1, x2, x3" 5 7).regs ∧
    (stepA (mkBinTest "FOO x1, x2, x3" 5 7)).2.dataMemory =
      (mkBinTest "FOO x1, x2, x3" 5 7).dataMemory ∧
    (stepA (mkBinTest "FOO x1, x2, x3" 5 7)).2.halted = false ∧
    (stepA (mkBinTest "FOO x1, x2, x3" 5 7)).2.pc = (mkBinTest "FOO x1, x2, x3" 5 7).pc + 4 ∧
    (stepA (mkBinTest "FOO x1, x2, x3" 5 7)).2.logs =
      (mkBinTest "FOO x1, x2, x3" 5 7).logs ++
        ["PC[" ++ intToStr (mkBinTest "FOO x1, x2, x3" 5 7).pc ++ "]: "
          ++ "FOO x1, x2, x3"] ∧
    (stepB (mkBinTest "FOO x1, x2, x3" 5 7)).1.isSome = true ∧
    (stepB (mkBinTest "FOO x1, x2, x3" 5 7)).2.regs = (mkBinTest "FOO x1, x2, x3" 5 7).regs ∧
    (stepB (mkBinTest "FOO x1, x2, x3" 5 7)).2.dataMemory =
      (mkBinTest "FOO x1, x2, x3" 5 7).dataMemory ∧
    (stepB (mkBinTest "FOO x1, x2, x3" 5 7)).2.halted = false ∧
    (stepB (mkBinTest "FOO x1, x2, x3" 5 7)).2.pc
      = (mkBinTest "FOO x1, x2, x3" 5 7).pc + 4 := by
  have h := unknownMnemonic_lenient (mkBinTest "FOO x1, x2, x3" 5 7)
    { addr := 0, text := "FOO x1, x2, x3", binary := "" }
    (by decide) (by decide) (by decide)
  exact h

/-- C3: register 0 always holds 0: after loading any program and stepping
any number of times — in either variant — reading register 0 yields 0, and
any register-writing instruction (arithmetic, immediate or load) whose
destination token resolves to register 0 leaves the register file and data
memory completely unchanged. -/
theorem reg0_invariant (text : String) (n : Nat) :
    (runA n (loadProgramA text)).regs[0]? = some 0 ∧
    (runB n (loadProgramB text)).regs[0]? = some 0 ∧
    (∀ (m : Machine) (i : Instr) (t0 t1 t2 t3 : String),
      m.halted = false → fetchInstr m = some i →
      tokenizeStep i.text = [t0, t1, t2, t3] →
      jsToUpper t0 ∈ ["ADD", "SUB", "AND", "OR", "SLT", "MULT", "SLL",
        "ADDI", "SLTI", "LW"] →
      getRegIndexStr t1 = 0 →
      (stepA m).2.regs = m.regs ∧ (stepA m).2.dataMemory = m.dataMemory) := by
  have hA : (runA n (loadProgramA text)).regs[0]? = some 0 := by
    apply runA_regs0
    rw [loadProgramA_regs]
    decide
  have hB : (runB n (loadProgramB text)).regs[0]? = some 0 := by
    obtain ⟨⟨_, _, hregs, _, _⟩, _⟩ := run_core n (load_core text)
    rw [← hregs]
    exact hA
  refine ⟨hA, hB, ?_⟩
  intro m i t0 t1 t2 t3 hh hf htok hop hrd
  have hhead : jsToUpper ((tokenizeStep i.text).headD "") = jsToUpper t0 := by
    rw [htok]
    rfl
  obtain ⟨l', hex⟩ := @execBodyA_rd0 m.regs m.dataMemory t0 t1 t2 t3
    ("PC[" ++ intToStr m.pc ++ "]: " ++ i.text) hop hrd
  rw [← htok] at hex
  rw [← hhead] at hex
  have hstep := stepA_ok hh hf hex
  constructor
  · simp [hstep]
  · simp [hstep]


theorem reg0_invariant_witness :
    (runA 1 (loadProgramA "ADD x0, x1, x2")).regs[0]? = some 0 ∧
    (runB 1 (loadProgramB "ADD x0, x1, x2")).regs[0]? = some 0 ∧
    ((stepA (mkBinTest "ADD x0, x1, x2" 5 7)).2.regs
        = (mkBinTest "ADD x0, x1, x2" 5 7).regs ∧
      (stepA (mkBinTest "ADD x0, x1, x2" 5 7)).2.dataMemory
        = (mkBinTest "ADD x0, x1, x2" 5 7).dataMemory) := by
  have h := reg0_invariant "ADD x0, x1, x2" 1
  exact ⟨h.1, h.2.1,
    h.2.2 (mkBinTest "ADD x0, x1, x2" 5 7)
      ⟨0, "ADD x0, x1, x2", ""⟩ "ADD" "x0" "x1" "x2"
      (by decide) (by decide) (by decide) (by decide) (by decide)⟩

/-- C1 (counterexample): contrary to the claim, an `ADDI` whose immediate
token contains no parseable integer does *not* fault: the step returns a
success object, `halted` stays false, and the destination register receives 0
(`parseInt` yields NaN, which `| 0` silently coerces to 0). -/
theorem nonNumericImmediate_counterexample :
    (stepA (loadProgramA "ADDI x1, x0, abc")).1.isSome = true ∧
    (stepA (loadProgramA "ADDI x1, x0, abc")).2.halted = false ∧
    (stepA (loadProgramA "ADDI x1, x0, abc")).2.regs[1]? = some 0 := by
  exact ⟨by decide, by decide, by decide⟩

/-- C1 (amended): an `ADDI` with a non-numeric immediate token does not
fault — `parseInt` yields NaN, `NaN | 0` is 0, so the step writes 0 to `rd`
(when `rd ≠ 0`), leaves `halted` false, advances the program counter and
returns a success object.  The engine's catch path (error trace line,
`halted = true`, return `false`) is reached when a required *register*
operand token is missing entirely, as in `ADDI x1`. -/
theorem nonNumericImmediate_amended :
    (∀ (m : Machine) (i : Instr) (t0 t1 t2 t3 : String),
      m.halted = false → fetchInstr m = some i →
      tokenizeStep i.text = [t0, t1, t2, t3] →
      jsToUpper t0 = "ADDI" → jsParseInt t3 = none →
      (stepA m).1.isSome = true ∧ (stepA m).2.halted = false ∧
      (stepA m).2.pc = m.pc + 4 ∧
      (stepA m).2.regs = (if getRegIndexStr t1 ≠ 0 then
        setReg m.regs (getRegIndexStr t1) 0 else m.regs)) ∧
    (∀ (m : Machine) (i : Instr) (t0 t1 : String),
      m.halted = false → fetchInstr m = some i →
      tokenizeStep i.text = [t0, t1] →
      jsToUpper t0 = "ADDI" →
      (stepA m).1 = none ∧ (stepA m).2.halted = true ∧
      (stepA m).2.logs = m.logs ++ ["ERRO CRÍTICO na linha " ++ intToStr m.pc]) := by
  constructor
  · intro m i t0 t1 t2 t3 hh hf htok hop himm
    have hhead : jsToUpper ((tokenizeStep i.text).headD "") = jsToUpper t0 := by
      rw [htok]
      rfl
    have hex := @execA_ADDI m.regs m.dataMemory t0 t1 t2 t3
      ("PC[" ++ intToStr m.pc ++ "]: " ++ i.text) hop
    rw [himm, jsAdd_none_right] at hex
    rw [← htok] at hex
    rw [← hhead] at hex
    have hstep := stepA_ok hh hf hex
    refine ⟨by simp [hstep], ?_, by simp [hstep], by simp [hstep, jsOr0]⟩
    simp [hstep]
    exact hh
  · intro m i t0 t1 hh hf htok hop
    have hhead : jsToUpper ((tokenizeStep i.text).headD "") = jsToUpper t0 := by
      rw [htok]
      rfl
    have hex := @execA_ADDI_missing m.regs m.dataMemory t0 t1
      ("PC[" ++ intToStr m.pc ++ "]: " ++ i.text) hop
    rw [← htok] at hex
    rw [← hhead] at hex
    have hstep := stepA_err hh hf hex
    exact ⟨by simp [hstep], by simp [hstep], by simp [hstep]⟩

theorem nonNumericImmediate_witness :
    ((stepA (mkBinTest "ADDI x1, x0, abc" 0 0)).1.isSome = true ∧
      (stepA (mkBinTest "ADDI x1, x0, abc" 0 0)).2.halted = false ∧
      (stepA (mkBinTest "ADDI x1, x0, abc" 0 0)).2.pc
        = (mkBinTest "ADDI x1, x0, abc" 0 0).pc + 4 ∧
      (stepA (mkBinTest "ADDI x1, x0, abc" 0 0)).2.regs =
        (if getRegIndexStr "x1" ≠ 0 then
          setReg (mkBinTest "ADDI x1, x0, abc" 0 0).regs (getRegIndexStr "x1") 0
        else (mkBinTest "ADDI x1, x0, abc" 0 0).regs)) ∧
    ((stepA (mkBinTest "ADDI x1" 0 0)).1 = none ∧
      (stepA (mkBinTest "ADDI x1" 0 0)).2.halted = true ∧
      (stepA (mkBinTest "ADDI x1" 0 0)).2.logs =
        (mkBinTest "ADDI x1" 0 0).logs ++
          ["ERRO CRÍTICO na linha " ++ intToStr (mkBinTest "ADDI x1" 0 0).pc]) := by
  exact ⟨nonNumericImmediate_amended.1 (mkBinTest "ADDI x1, x0, abc" 0 0)
      ⟨0, "ADDI x1, x0, abc", ""⟩ "ADDI" "x1" "x0" "abc"
      (by decide) (by decide) (by decide) (by decide) (by decide),
    nonNumericImmediate_amended.2 (mkBinTest "ADDI x1" 0 0)
      ⟨0, "ADDI x1", ""⟩ "ADDI" "x1"
      (by decide) (by decide) (by decide) (by decide)⟩


/-- C2 (counterexample): `MULT` does not compute the true product modulo
`2^32`.  With both operands `2147483647`, JavaScript first rounds the 62-bit
product to double precision, losing its low bits; `| 0` then yields 0, while
the true product reduced modulo `2^32` into the signed range is 1. -/
theorem multRounding_counterexample :
    (stepA (mkBinTest "MULT x3, x1, x2" 2147483647 2147483647)).2.regs[3]? = some 0 ∧
    toInt32 (2147483647 * 2147483647) = 1 := by
  exact ⟨by decide, by decide⟩

/-- C2 (amended): with in-range register operands, `ADD`, `SUB` and
`ADDI` (with an in-range immediate) write the exact mathematical result
wrapped to signed 32 bits.  `MULT` writes `toInt32` of the product *rounded
to the nearest double*; this agrees with the true product modulo `2^32`
whenever the product's magnitude stays below `2^53`, but not in general. -/
theorem arithmeticWraparound_amended (m : Machine) (i : Instr)
    (t0 t1 t2 t3 : String) (d a b : Nat) (v1 v2 : Int)
    (hh : m.halted = false) (hf : fetchInstr m = some i)
    (htok : tokenizeStep i.text = [t0, t1, t2, t3])
    (hd : getRegIndexStr t1 = d) (ha : getRegIndexStr t2 = a)
    (hb : getRegIndexStr t3 = b)
    (hdn : d ≠ 0) (hdlt : d < m.regs.length)
    (hv1 : m.regs[a]? = some v1)
    (hr1 : -2147483648 ≤ v1) (hr2 : v1 < 2147483648) :
    (m.regs[b]? = some v2 → -2147483648 ≤ v2 → v2 < 2147483648 →
      ((jsToUpper t0 = "ADD" → (stepA m).2.regs[d]? = some (toInt32 (v1 + v2))) ∧
        (jsToUpper t0 = "SUB" → (stepA m).2.regs[d]? = some (toInt32 (v1 - v2))) ∧
        (jsToUpper t0 = "MULT" →
          (stepA m).2.regs[d]? = some (toInt32 (roundF64 (v1 * v2))) ∧
          ((v1 * v2).natAbs < 9007199254740992 →
            (stepA m).2.regs[d]? = some (toInt32 (v1 * v2)))))) ∧
    (∀ imm : Int, jsToUpper t0 = "ADDI" → jsParseInt t3 = some imm →
      -2147483648 ≤ imm → imm < 2147483648 →
      (stepA m).2.regs[d]? = some (toInt32 (v1 + imm))) := by
  have hhead : jsToUpper ((tokenizeStep i.text).headD "") = jsToUpper t0 := by
    rw [htok]
    rfl
  constructor
  · intro hv2 hr3 hr4
    refine ⟨?_, ?_, ?_⟩
    · intro hop
      have hex := @execA_ADD m.regs m.dataMemory t0 t1 t2 t3
        ("PC[" ++ intToStr m.pc ++ "]: " ++ i.text) hop
      rw [hd, ha, hb, hv1, hv2, if_pos hdn] at hex
      rw [← htok] at hex
      rw [← hhead] at hex
      have hstep := stepA_ok hh hf hex
      have hres : jsOr0 (jsAdd (some v1) (some v2)) = toInt32 (v1 + v2) := by
        simp only [jsAdd, jsOr0]
        rw [roundF64_eq_of_lt (by omega)]
      rw [hstep]
      dsimp only
      rw [hres, getElem?_setReg_self _ hdlt, toInt32_idem]
    · intro hop
      have hex := @execA_SUB m.regs m.dataMemory t0 t1 t2 t3
        ("PC[" ++ intToStr m.pc ++ "]: " ++ i.text) hop
      rw [hd, ha, hb, hv1, hv2, if_pos hdn] at hex
      rw [← htok] at hex
      rw [← hhead] at hex
      have hstep := stepA_ok hh hf hex
      have hres : jsOr0 (jsSub (some v1) (some v2)) = toInt32 (v1 - v2) := by
        simp only [jsSub, jsOr0]
        rw [roundF64_eq_of_lt (by omega)]
      rw [hstep]
      dsimp only
      rw [hres, getElem?_setReg_self _ hdlt, toInt32_idem]
    · intro hop
      have hex := @execA_MULT m.regs m.dataMemory t0 t1 t2 t3
        ("PC[" ++ intToStr m.pc ++ "]: " ++ i.text) hop
      rw [hd, ha, hb, hv1, hv2, if_pos hdn] at hex
      rw [← htok] at hex
      rw [← hhead] at hex
      have hstep := stepA_ok hh hf hex
      have hmain : (stepA m).2.regs[d]? = some (toInt32 (roundF64 (v1 * v2))) := by
        rw [hstep]
        dsimp only
        have hres : jsOr0 (jsMul (some v1) (some v2)) = toInt32 (roundF64 (v1 * v2)) := by
          simp only [jsMul, jsOr0]
        rw [hres, getElem?_setReg_self _ hdlt, toInt32_idem]
      refine ⟨hmain, ?_⟩
      intro hsmall
      rw [hmain, roundF64_eq_of_lt hsmall]
  · intro imm hop himm hr5 hr6
    have hex := @execA_ADDI m.regs m.dataMemory t0 t1 t2 t3
      ("PC[" ++ intToStr m.pc ++ "]: " ++ i.text) hop
    rw [hd, ha, hv1, himm, if_pos hdn] at hex
    rw [← htok] at hex
    rw [← hhead] at hex
    have hstep := stepA_ok hh hf hex
    have hres : jsOr0 (jsAdd (some v1) (some imm)) = toInt32 (v1 + imm) := by
      simp only [jsAdd, jsOr0]
      rw [roundF64_eq_of_lt (by omega)]
    rw [hstep]
    dsimp only
    rw [hres, getElem?_setReg_self _ hdlt, toInt32_idem]

theorem arithmeticWraparound_witness :
    (((mkBinTest "ADD x3, x1, x2" 2000000000 2000000000).regs[2]?
        = some 2000000000 → -2147483648 ≤ (2000000000 : Int) →
        (2000000000 : Int) < 2147483648 →
      ((jsToUpper "ADD" = "ADD" →
        (stepA (mkBinTest "ADD x3, x1, x2" 2000000000 2000000000)).2.regs[3]?
          = some (toInt32 (2000000000 + 2000000000))) ∧
       (jsToUpper "ADD" = "SUB" →
        (stepA (mkBinTest "ADD x3, x1, x2" 2000000000 2000000000)).2.regs[3]?
          = some (toInt32 (2000000000 - 2000000000))) ∧
       (jsToUpper "ADD" = "MULT" →
        (stepA (mkBinTest "ADD x3, x1, x2" 2000000000 2000000000)).2.regs[3]?
          = some (toInt32 (roundF64 (2000000000 * 2000000000))) ∧
        (((2000000000 : Int) * 2000000000).natAbs < 9007199254740992 →
          (stepA (mkBinTest "ADD x3, x1, x2" 2000000000 2000000000)).2.regs[3]?
            = some (toInt32 (2000000000 * 2000000000)))))) ∧
     (∀ imm : Int, jsToUpper "ADD" = "ADDI" → jsParseInt "x2" = some imm →
        -2147483648 ≤ imm → imm < 2147483648 →
        (stepA (mkBinTest "ADD x3, x1, x2" 2000000000 2000000000)).2.regs[3]?
          = some (toInt32 (2000000000 + imm)))) ∧
    (stepA (mkBinTest "ADD x3, x1, x2" 2000000000 2000000000)).2.regs[3]?
      = some (-294967296) := by
  have h := arithmeticWraparound_amended
    (mkBinTest "ADD x3, x1, x2" 2000000000 2000000000)
    ⟨0, "ADD x3, x1, x2", ""⟩ "ADD" "x3" "x1" "x2" 3 1 2 2000000000 2000000000
    (by decide) (by decide) (by decide) (by decide) (by decide) (by decide)
    (by decide) (by decide) (by decide) (by decide) (by decide)
  refine ⟨h, ?_⟩
  have h2 := (h.1 (by decide) (by decide) (by decide)).1 rfl
  rw [h2]
  decide


/-- C8: `SLL` writes to `rd` the value of `rs1` shifted left by
`rs2 mod 32` bit positions, truncated to signed 32-bit two's complement —
the shift count is reduced modulo 32 (via `ToUint32(rs2) & 31`) even when
`rs2` is 32 or larger or negative. -/
theorem sll_shiftMod32 (m : Machine) (i : Instr)
    (t0 t1 t2 t3 : String) (d a b : Nat) (v1 v2 : Int)
    (hh : m.halted = false) (hf : fetchInstr m = some i)
    (htok : tokenizeStep i.text = [t0, t1, t2, t3])
    (hop : jsToUpper t0 = "SLL")
    (hd : getRegIndexStr t1 = d) (ha : getRegIndexStr t2 = a)
    (hb : getRegIndexStr t3 = b)
    (hdn : d ≠ 0) (hdlt : d < m.regs.length)
    (hv1 : m.regs[a]? = some v1) (hv2 : m.regs[b]? = some v2)
    (hr1 : -2147483648 ≤ v1) (hr2 : v1 < 2147483648)
    (hr3 : -2147483648 ≤ v2) (hr4 : v2 < 2147483648) :
    (stepA m).2.regs[d]? = some (toInt32 (v1 * 2 ^ (v2 % 32).toNat)) := by
  have hhead : jsToUpper ((tokenizeStep i.text).headD "") = jsToUpper t0 := by
    rw [htok]
    rfl
  have hex := @execA_SLL m.regs m.dataMemory t0 t1 t2 t3
    ("PC[" ++ intToStr m.pc ++ "]: " ++ i.text) hop
  rw [hd, ha, hb, hv1, hv2, if_pos hdn] at hex
  rw [← htok] at hex
  rw [← hhead] at hex
  have hstep := stepA_ok hh hf hex
  have hres : jsOr0 (some (jsShl (some v1) (some v2)))
      = toInt32 (v1 * 2 ^ (v2 % 32).toNat) := by
    simp only [jsShl, jsOr0]
    rw [toInt32_eq_of_range hr1 hr2, toInt32_eq_of_range hr3 hr4]
    unfold toUint32
    rw [Int.emod_emod_of_dvd v2 (by norm_num : (32 : Int) ∣ 4294967296)]
    rw [toInt32_idem]
  rw [hstep]
  dsimp only
  rw [hres, getElem?_setReg_self _ hdlt, toInt32_idem]

theorem sll_shiftMod32_witness :
    (stepA (mkBinTest "SLL x3, x1, x2" 1 33)).2.regs[3]?
      = some (toInt32 (1 * 2 ^ ((33 : Int) % 32).toNat)) ∧
    (stepA (mkBinTest "SLL x3, x1, x2" 1 33)).2.regs[3]? = some 2 := by
  have h := sll_shiftMod32 (mkBinTest "SLL x3, x1, x2" 1 33)
    ⟨0, "SLL x3, x1, x2", ""⟩ "SLL" "x3" "x1" "x2" 3 1 2 1 33
    (by decide) (by decide) (by decide) (by decide) (by decide) (by decide)
    (by decide) (by decide) (by decide) (by decide) (by decide) (by decide)
    (by decide) (by decide) (by decide)
  exact ⟨h, by rw [h]; decide⟩

/-- C9: register tokens resolving to indices ≥ 32 are safe: an R-type
step with any such token still succeeds (no exception reaches the caller),
the program counter advances by 4, the data memory is untouched, reads of
out-of-range indices yield the `undefined` default rather than an error, and
a write-back to an out-of-range destination register is discarded, leaving
all 32 registers unchanged. -/
theorem oobRegister_safe (m : Machine) (i : Instr) (t0 t1 t2 t3 : String)
    (hh : m.halted = false) (hf : fetchInstr m = some i)
    (htok : tokenizeStep i.text = [t0, t1, t2, t3])
    (hop : jsToUpper t0 ∈ ["ADD", "SUB", "AND", "OR", "SLT", "MULT", "SLL"])
    (hlen : m.regs.length = 32) :
    (stepA m).1.isSome = true ∧
    (stepA m).2.pc = m.pc + 4 ∧
    (stepA m).2.dataMemory = m.dataMemory ∧
    (stepA m).2.halted = false ∧
    (∀ j : Nat, 32 ≤ j → m.regs[j]? = none) ∧
    (32 ≤ getRegIndexStr t1 → (stepA m).2.regs = m.regs) := by
  have hhead : jsToUpper ((tokenizeStep i.text).headD "") = jsToUpper t0 := by
    rw [htok]
    rfl
  obtain ⟨res, hex⟩ := @execBodyA_rtype m.regs m.dataMemory t0 t1 t2 t3
    ("PC[" ++ intToStr m.pc ++ "]: " ++ i.text) hop
  rw [← htok] at hex
  rw [← hhead] at hex
  have hstep := stepA_ok hh hf hex
  refine ⟨by simp [hstep], by simp [hstep], by simp [hstep], ?_, ?_, ?_⟩
  · simp [hstep]
    exact hh
  · intro j hj
    exact List.getElem?_eq_none (by omega)
  · intro hge
    rw [hstep]
    dsimp only
    rw [if_pos (by omega : getRegIndexStr t1 ≠ 0)]
    unfold setReg
    exact List.set_eq_of_length_le (by omega)

theorem oobRegister_safe_witness :
    (stepA (mkBinTest "ADD x99, x1, x2" 5 7)).1.isSome = true ∧
    (stepA (mkBinTest "ADD x99, x1, x2" 5 7)).2.pc
      = (mkBinTest "ADD x99, x1, x2" 5 7).pc + 4 ∧
    (stepA (mkBinTest "ADD x99, x1, x2" 5 7)).2.dataMemory
      = (mkBinTest "ADD x99, x1, x2" 5 7).dataMemory ∧
    (stepA (mkBinTest "ADD x99, x1, x2" 5 7)).2.halted = false ∧
    (∀ j : Nat, 32 ≤ j → (mkBinTest "ADD x99, x1, x2" 5 7).regs[j]? = none) ∧
    (32 ≤ getRegIndexStr "x99" →
      (stepA (mkBinTest "ADD x99, x1, x2" 5 7)).2.regs
        = (mkBinTest "ADD x99, x1, x2" 5 7).regs) := by
  exact oobRegister_safe (mkBinTest "ADD x99, x1, x2" 5 7)
    ⟨0, "ADD x99, x1, x2", ""⟩ "ADD" "x99" "x1" "x2"
    (by decide) (by decide) (by decide) (by decide) (by decide)


/-- Executing `LW` when the addressed cell holds a stored integer loads
exactly that integer (through the `Int32Array` write-back). -/
theorem lw_step (m' : Machine) (i2 : Instr) (t0 tc tb tk : String)
    (c b : Nat) (k vb va : Int)
    (hh : m'.halted = false) (hf : fetchInstr m' = some i2)
    (htok : tokenizeStep i2.text = [t0, tc, tb, tk]) (hop : jsToUpper t0 = "LW")
    (hc : getRegIndexStr tc = c) (hb : getRegIndexStr tb = b)
    (hk : jsParseInt tk = some k)
    (hvb : m'.regs[b]? = some vb)
    (hmem : memGet m'.dataMemory (jsAdd (some vb) (some k)) = some (some va))
    (hcn : c ≠ 0) (hclt : c < m'.regs.length) :
    (stepA m').2.regs[c]? = some (toInt32 va) := by
  have hhead : jsToUpper ((tokenizeStep i2.text).headD "") = jsToUpper t0 := by
    rw [htok]
    rfl
  have hex := @execA_LW m'.regs m'.dataMemory t0 tc tb tk
    ("PC[" ++ intToStr m'.pc ++ "]: " ++ i2.text) hop
  rw [hc, hb, hvb, hk, hmem, lwOrZero_stored, if_pos hcn] at hex
  rw [← htok] at hex
  rw [← hhead] at hex
  have hstep := stepA_ok hh hf hex
  rw [hstep]
  dsimp only
  rw [getElem?_setReg_self _ hclt]

/-- C6: store/load round-trip. `SW x_a, x_b, k` immediately followed by
`LW x_c, x_b, k` (same base register, same offset; `SW` writes no register,
so the value of `x_b` is unchanged in between) leaves `x_c` (with `c ≠ 0`)
holding the value `x_a` had at the time of the store. -/
theorem sw_lw_roundtrip (m : Machine) (i1 i2 : Instr)
    (s0 sa sb sk t0 tc tb tk : String) (a b c : Nat) (k va vb : Int)
    (hh : m.halted = false)
    (hf1 : fetchInstr m = some i1)
    (htok1 : tokenizeStep i1.text = [s0, sa, sb, sk])
    (hop1 : jsToUpper s0 = "SW")
    (hf2 : m.instrMemory.find? (fun j => j.addr == m.pc + 4) = some i2)
    (htok2 : tokenizeStep i2.text = [t0, tc, tb, tk])
    (hop2 : jsToUpper t0 = "LW")
    (ha : getRegIndexStr sa = a) (hb : getRegIndexStr sb = b)
    (hb2 : getRegIndexStr tb = b) (hc : getRegIndexStr tc = c)
    (hk : jsParseInt sk = some k) (hk2 : jsParseInt tk = some k)
    (hva : m.regs[a]? = some va) (hvb : m.regs[b]? = some vb)
    (hcn : c ≠ 0) (hclt : c < m.regs.length)
    (hvr1 : -2147483648 ≤ va) (hvr2 : va < 2147483648) :
    (runA 2 m).regs[c]? = some va := by
  have hhead1 : jsToUpper ((tokenizeStep i1.text).headD "") = jsToUpper s0 := by
    rw [htok1]
    rfl
  have hex1 := @execA_SW m.regs m.dataMemory s0 sa sb sk
    ("PC[" ++ intToStr m.pc ++ "]: " ++ i1.text) hop1
  rw [ha, hb, hva, hvb, hk] at hex1
  rw [← htok1] at hex1
  rw [← hhead1] at hex1
  have hstep1 := stepA_ok hh hf1 hex1
  have hh2 : (stepA m).2.halted = false := by
    rw [hstep1]
    exact hh
  have hf2' : fetchInstr (stepA m).2 = some i2 := by
    show (stepA m).2.instrMemory.find? (fun j => j.addr == (stepA m).2.pc) = some i2
    rw [hstep1]
    exact hf2
  have hvb2 : (stepA m).2.regs[b]? = some vb := by
    rw [hstep1]
    exact hvb
  have hmem2 : memGet (stepA m).2.dataMemory (jsAdd (some vb) (some k))
      = some (some va) := by
    rw [hstep1]
    exact memGet_memSet_self m.dataMemory (jsAdd (some vb) (some k)) (some va)
  have hclt2 : c < (stepA m).2.regs.length := by
    rw [hstep1]
    exact hclt
  have h2 := lw_step (stepA m).2 i2 t0 tc tb tk c b k vb va
    hh2 hf2' htok2 hop2 hc hb2 hk2 hvb2 hmem2 hcn hclt2
  have hrun : runA 2 m = (stepA (stepA m).2).2 := rfl
  rw [hrun, h2, toInt32_eq_of_range hvr1 hvr2]

/-- Two-instruction machine witnessing the store/load round-trip. -/
def swLwTest : Machine :=
  { pc := 0, regs := 0 :: 99 :: 8 :: List.replicate 29 0,
    instrMemory := [⟨0, "SW x1, x2, 4", ""⟩, ⟨4, "LW x3, x2, 4", ""⟩],
    dataMemory := [], halted := false, logs := [] }

theorem sw_lw_roundtrip_witness :
    (runA 2 swLwTest).regs[3]? = some 99 := by
  exact sw_lw_roundtrip swLwTest
    ⟨0, "SW x1, x2, 4", ""⟩ ⟨4, "LW x3, x2, 4", ""⟩
    "SW" "x1" "x2" "4" "LW" "x3" "x2" "4" 1 2 3 4 99 8
    (by decide) (by decide) (by decide) (by decide) (by decide) (by decide)
    (by decide) (by decide) (by decide) (by decide) (by decide) (by decide)
    (by decide) (by decide) (by decide) (by decide) (by decide) (by decide)
    (by decide)

end RiscvSim
